import Mathlib

/-!
c8js, a CHIP-8 interpreter (`src/c8js.js`).

Shallow embedding of the class `C8JS` and theorems about its `reset`, `loadROM` and
`step` methods.

Conventions of the embedding.

* `memory` and `v` are `Uint8Array`s of fixed length (4096 and 16).  They are functions
  from the index to the stored byte; a read at or past the length yields JavaScript's
  `undefined`, a write there is ignored, and every write stores its value modulo 256.
* `display`, `keypad` and `stack` are ordinary JavaScript arrays, embedded as lists.
* `pc` is a JavaScript value: `stack.pop()` on an empty array returns `undefined`, and
  `undefined + 2` is `NaN`.
* an exception that leaves a method is an explicit `Completion.throw`.
-/

namespace C8

/-- The values the field `pc` and the entries of `stack` can take: a non-negative
integer, `undefined` (the result of `pop()` on an empty array) or `NaN`. -/
inductive JsVal where
  | num (n : Nat)
  | undefined
  | nan
  deriving DecidableEq, Repr

/-- JavaScript `p + k` for a non-negative integer `k`: `undefined + k` and `NaN + k`
are `NaN`. -/
def JsVal.add (p : JsVal) (k : Nat) : JsVal :=
  match p with
  | .num n => .num (n + k)
  | _ => .nan

/-- The exceptions the program can raise. -/
inductive JsError where
  | ReferenceError
  | RangeError
  deriving DecidableEq, Repr

/-- `this.cols = 64` (constructor, never reassigned). -/
def cols : Nat := 64

/-- `this.rows = 32` (constructor, never reassigned). -/
def rows : Nat := 32

/-- Length of `this.memory = new Uint8Array(4096)`. -/
def memSize : Nat := 4096

/-- Length of `this.v = new Uint8Array(16)`. -/
def regCount : Nat := 16

/-- The instance fields of `C8JS` that the interpreter reads or writes.  `ctx` is true
when `this.ctx` is a usable 2D context (it is `null` when the canvas lookup failed);
`audioCtx` and `oscillator` are true when the field of that name is non-null. -/
structure C8JS where
  memory : Nat → Nat
  v : Nat → Nat
  stack : List JsVal
  display : List Nat
  keypad : List Bool
  audioCtx : Bool
  oscillator : Bool
  pc : JsVal
  i : Nat
  delayTimer : Nat
  soundTimer : Nat
  drawFlag : Bool
  waitingForKey : Bool
  waitingRegister : Nat
  halted : Bool
  turbo : Bool
  turboSpeed : Nat
  ctx : Bool

/-- How a method call ends: normally, or with an exception, in the state reached. -/
inductive Completion where
  | normal (s : C8JS)
  | throw (e : JsError) (s : C8JS)

/-- The machine state a call leaves behind. -/
def Completion.state : Completion → C8JS
  | .normal s => s
  | .throw _ s => s

/-- The exception a call ended with, if any. -/
def Completion.error : Completion → Option JsError
  | .normal _ => none
  | .throw e _ => some e

/-- Sequencing of method calls: an exception ends the sequence. -/
def Completion.andThen (c : Completion) (f : C8JS → Completion) : Completion :=
  match c with
  | .normal s => f s
  | .throw e s => .throw e s

/-- `this.fontSet`. -/
def fontSet : List Nat :=
  [0xF0, 0x90, 0x90, 0x90, 0xF0,
   0x20, 0x60, 0x20, 0x20, 0x70,
   0xF0, 0x10, 0xF0, 0x80, 0xF0,
   0xF0, 0x10, 0xF0, 0x10, 0xF0,
   0x90, 0x90, 0xF0, 0x10, 0x10,
   0xF0, 0x80, 0xF0, 0x10, 0xF0,
   0xF0, 0x80, 0xF0, 0x90, 0xF0,
   0xF0, 0x10, 0x20, 0x40, 0x40,
   0xF0, 0x90, 0xF0, 0x90, 0xF0,
   0xF0, 0x90, 0xF0, 0x10, 0xF0,
   0xF0, 0x90, 0xF0, 0x90, 0x90,
   0xE0, 0x90, 0xE0, 0x90, 0xE0,
   0xF0, 0x80, 0x80, 0x80, 0xF0,
   0xE0, 0x90, 0x90, 0x90, 0xE0,
   0xF0, 0x80, 0xF0, 0x80, 0xF0,
   0xF0, 0x80, 0xF0, 0x80, 0x80]

/-! ## Typed arrays -/

/-- `this.memory[a]` for a numeric `a`: `none` stands for `undefined`. -/
def memRead (m : Nat → Nat) (a : Nat) : Option Nat :=
  if a < memSize then some (m a) else none

/-- `this.memory[p]` for a JavaScript value `p`; `undefined` and `NaN` name no element. -/
def memReadAt (m : Nat → Nat) (p : JsVal) : Option Nat :=
  match p with
  | .num a => memRead m a
  | _ => none

/-- `this.memory[a] = val`: stored modulo 256, ignored out of bounds. -/
def memWrite (m : Nat → Nat) (a val : Nat) : Nat → Nat :=
  fun b => if b = a ∧ a < memSize then val % 256 else m b

/-- `this.v[x] = val`: stored modulo 256, ignored out of bounds. -/
def setV (v : Nat → Nat) (x val : Nat) : Nat → Nat :=
  fun j => if j = x ∧ x < regCount then val % 256 else v j

/-- `z & 0xFF` for a possibly negative integer `z` (two's complement). -/
def and0xFF (z : Int) : Nat := (z % 256).toNat

/-- `new Uint8Array(4096)` followed by the loop copying `fontSet` to its start. -/
def fontMemory : Nat → Nat :=
  fun a => fontSet.getD a 0

/-! ## Display -/

/-- Truthiness of `this.display[idx]`; a missing element is `undefined`, which is
falsy. -/
def lit (d : List Nat) (idx : Nat) : Bool :=
  d.getD idx 0 != 0

/-- `this.display[idx] ^= 1`.  A missing element reads as `undefined`, which `^` takes
as 0, and the assignment then extends the array. -/
def flipCell (d : List Nat) (idx : Nat) : List Nat :=
  if idx < d.length then d.set idx (d.getD idx 0 ^^^ 1)
  else d ++ List.replicate (idx - d.length) 0 ++ [1]

/-- `clearScreen()`. -/
def clearScreen (s : C8JS) : C8JS :=
  { s with display := List.replicate (cols * rows) 0 }

/-- `drawScreen()`: painting changes no field; when `this.ctx` is `null` the `catch`
branch sets `halted`. -/
def drawScreen (s : C8JS) : C8JS :=
  if s.ctx then s else { s with halted := true }

/-! ## reset and loadROM -/

/-- `reset()`. -/
def reset (s : C8JS) : C8JS :=
  clearScreen
    { s with
      memory := fontMemory
      v := fun _ => 0
      stack := []
      display := List.replicate (cols * rows) 0
      keypad := List.replicate 16 false
      pc := .num 0x200
      i := 0
      delayTimer := 0
      soundTimer := 0
      drawFlag := false
      waitingForKey := false
      waitingRegister := 0
      turbo := false }

/-- `this.memory.set(rom, off)` when it fits: byte `k` of `rom` goes to `off + k`. -/
def memSet (m : Nat → Nat) (rom : List Nat) (off : Nat) : Nat → Nat :=
  fun a => if off ≤ a ∧ a < off + rom.length then rom.getD (a - off) 0 % 256 else m a

/-- `loadROM(buffer)`, `rom` being the bytes of the buffer.  `TypedArray.prototype.set`
raises a `RangeError` before writing anything when the source does not fit. -/
def loadROM (s : C8JS) (rom : List Nat) : Completion :=
  let s1 := reset s
  if rom.length + 0x200 > memSize then .throw .RangeError s1
  else .normal { s1 with memory := memSet s1.memory rom 0x200 }

/-! ## step -/

/-- `(this.memory[this.pc] << 8) | this.memory[this.pc + 1]`; `undefined` counts as 0
in both operators. -/
def fetch (m : Nat → Nat) (pc : JsVal) : Nat :=
  (((memReadAt m pc).getD 0) <<< 8) ||| ((memReadAt m (pc.add 1)).getD 0)

/-- The body of the inner loop of `case 0xD000`, for one `col`. -/
def drawPixel (x y row sprite : Nat) (s : C8JS) (col : Nat) : C8JS :=
  let pixel := (sprite >>> (7 - col)) &&& 1
  let px := (s.v x + col) % cols
  let py := (s.v y + row) % rows
  let idx := py * cols + px
  if pixel ≠ 0 then
    let s1 := if lit s.display idx then { s with v := setV s.v 0xF 1 } else s
    { s1 with display := flipCell s1.display idx }
  else s

/-- The body of the outer loop of `case 0xD000`, for one `row`. -/
def drawRow (x y : Nat) (s : C8JS) (row : Nat) : C8JS :=
  let sprite := (memRead s.memory (s.i + row)).getD 0
  (List.range 8).foldl (drawPixel x y row sprite) s

/-- `case 0xD000`. -/
def draw (x y n : Nat) (s : C8JS) : C8JS :=
  let s0 := { s with v := setV s.v 0xF 0 }
  let s1 := (List.range n).foldl (drawRow x y) s0
  { s1 with drawFlag := true }

/-- `case 0x8000`. -/
def alu (x y n : Nat) (s : C8JS) : C8JS :=
  match n with
  | 0x0 => { s with v := setV s.v x (s.v y) }
  | 0x1 => { s with v := setV s.v x (s.v x ||| s.v y) }
  | 0x2 => { s with v := setV s.v x (s.v x &&& s.v y) }
  | 0x3 => { s with v := setV s.v x (s.v x ^^^ s.v y) }
  | 0x4 =>
    let sum := s.v x + s.v y
    let v1 := setV s.v 0xF (if sum > 0xFF then 1 else 0)
    { s with v := setV v1 x (sum &&& 0xFF) }
  | 0x5 =>
    let v1 := setV s.v 0xF (if s.v x > s.v y then 1 else 0)
    { s with v := setV v1 x (and0xFF ((v1 x : Int) - (v1 y : Int))) }
  | 0x6 =>
    let v1 := setV s.v 0xF (s.v x &&& 0x1)
    { s with v := setV v1 x (v1 x >>> 1) }
  | 0x7 =>
    let v1 := setV s.v 0xF (if s.v y > s.v x then 1 else 0)
    { s with v := setV v1 x (and0xFF ((v1 y : Int) - (v1 x : Int))) }
  | 0xE =>
    let v1 := setV s.v 0xF ((s.v x &&& 0x80) >>> 7)
    { s with v := setV v1 x ((v1 x <<< 1) &&& 0xFF) }
  | _ => s

/-- The loop of `case 0x55`: `memory[i + j] = v[j]` for `j = 0 .. x`. -/
def storeRegs (x : Nat) (s : C8JS) : C8JS :=
  (List.range (x + 1)).foldl
    (fun t j => { t with memory := memWrite t.memory (t.i + j) (t.v j) }) s

/-- The loop of `case 0x65`: `v[j] = memory[i + j]` for `j = 0 .. x`; an `undefined`
is stored as 0. -/
def loadRegs (x : Nat) (s : C8JS) : C8JS :=
  (List.range (x + 1)).foldl
    (fun t j => { t with v := setV t.v j ((memRead t.memory (t.i + j)).getD 0) }) s

/-- `case 0xF000`. -/
def misc (x nn : Nat) (s : C8JS) : C8JS :=
  match nn with
  | 0x07 => { s with v := setV s.v x s.delayTimer }
  | 0x0A => { s with waitingForKey := true, waitingRegister := x }
  | 0x15 => { s with delayTimer := s.v x }
  | 0x18 => { s with soundTimer := s.v x }
  | 0x1E => { s with i := (s.i + s.v x) &&& 0xFFFF }
  | 0x29 => { s with i := s.v x * 5 }
  | 0x33 =>
    let m1 := memWrite s.memory s.i (s.v x / 100)
    let m2 := memWrite m1 (s.i + 1) (s.v x % 100 / 10)
    { s with memory := memWrite m2 (s.i + 2) (s.v x % 10) }
  | 0x55 => storeRegs x s
  | 0x65 => loadRegs x s
  | _ => s

/-- The tail of `step()`: `if (this.drawFlag) { this.drawScreen(); this.drawFlag = false; }`. -/
def present (s : C8JS) : C8JS :=
  if s.drawFlag then { drawScreen s with drawFlag := false } else s

/-- The `switch (opcode & 0xF000)` of `step()`, entered after `this.pc += 2`.  `rnd` is
the value of `Math.floor(Math.random() * 256)`, used by `case 0xC000` only.
`case 0xB000` reads the undeclared identifier `v` and raises a `ReferenceError`. -/
def dispatch (rnd opcode : Nat) (s : C8JS) : Completion :=
  let x := (opcode &&& 0x0F00) >>> 8
  let y := (opcode &&& 0x00F0) >>> 4
  let nnn := opcode &&& 0x0FFF
  let nn := opcode &&& 0x00FF
  let n := opcode &&& 0x000F
  match opcode &&& 0xF000 with
  | 0x0000 =>
    if opcode = 0x00E0 then .normal { s with display := s.display.map (fun _ => 0) }
    else if opcode = 0x00EE then
      .normal { s with pc := s.stack.getLast?.getD .undefined, stack := s.stack.dropLast }
    else .normal s
  | 0x1000 => .normal { s with pc := .num nnn }
  | 0x2000 => .normal { s with stack := s.stack ++ [s.pc], pc := .num nnn }
  | 0x3000 => .normal (if s.v x = nn then { s with pc := s.pc.add 2 } else s)
  | 0x4000 => .normal (if s.v x ≠ nn then { s with pc := s.pc.add 2 } else s)
  | 0x5000 => .normal (if s.v x = s.v y then { s with pc := s.pc.add 2 } else s)
  | 0x6000 => .normal { s with v := setV s.v x nn }
  | 0x7000 => .normal { s with v := setV s.v x ((s.v x + nn) &&& 0xFF) }
  | 0x8000 => .normal (alu x y n s)
  | 0x9000 => .normal (if s.v x ≠ s.v y then { s with pc := s.pc.add 2 } else s)
  | 0xA000 => .normal { s with i := nnn }
  | 0xB000 => .throw .ReferenceError s
  | 0xC000 => .normal { s with v := setV s.v x (rnd &&& nn) }
  | 0xD000 => .normal (draw x y n s)
  | 0xE000 =>
    let s1 := if nn = 0x9E ∧ s.keypad.getD (s.v x) false = true
      then { s with pc := s.pc.add 2 } else s
    .normal (if nn = 0xA1 ∧ s1.keypad.getD (s1.v x) false = false
      then { s1 with pc := s1.pc.add 2 } else s1)
  | 0xF000 => .normal (misc x nn s)
  | _ => .normal s

/-- `step()`. -/
def step (rnd : Nat) (s : C8JS) : Completion :=
  if s.waitingForKey then .normal s
  else if s.halted then .normal s
  else
    let opcode := fetch s.memory s.pc
    match dispatch rnd opcode { s with pc := s.pc.add 2 } with
    | .normal s1 => .normal (present s1)
    | .throw e s1 => .throw e s1

/-- The constructor.  `canvas` tells whether `document.getElementById(canvasId)` found
an element (otherwise the `catch` branch sets `halted`), `context` whether
`getContext('2d')` returned a context. -/
def construct (canvas context : Bool) : C8JS :=
  { memory := fontMemory
    v := fun _ => 0
    stack := []
    display := List.replicate (cols * rows) 0
    keypad := List.replicate 16 false
    audioCtx := false
    oscillator := false
    pc := .num 0x200
    i := 0
    delayTimer := 0
    soundTimer := 5
    drawFlag := false
    waitingForKey := false
    waitingRegister := 0
    halted := !canvas
    turbo := false
    turboSpeed := 10
    ctx := canvas && context }

/-! ## Timers and sound -/

/-- `startBeep()`.  The Web Audio calls inside the `try` are taken to succeed, so an
oscillator exists afterwards whenever an audio context does. -/
def startBeep (s : C8JS) : C8JS :=
  if !s.oscillator then
    if s.audioCtx then { s with oscillator := true } else s
  else s

/-- `stopBeep()`, the calls inside the `try` being taken to succeed. -/
def stopBeep (s : C8JS) : C8JS :=
  if s.oscillator then { s with oscillator := false } else s

/-- The callback the constructor hands to `setInterval(..., 1000 / 60)`. -/
def timerTick (s : C8JS) : C8JS :=
  let s1 := if s.delayTimer > 0 then { s with delayTimer := s.delayTimer - 1 } else s
  if s1.soundTimer > 0 then startBeep { s1 with soundTimer := s1.soundTimer - 1 }
  else stopBeep s1

/-! ## Keyboard -/

/-- The characters of the string `"1234qwerasdfzxcv"` of both key handlers. -/
def keyChars : List Char := "1234qwerasdfzxcv".toList

/-- Whether the characters of `needle` stand at the start of `hay`. -/
def startsWith : List Char → List Char → Bool
  | _, [] => true
  | [], _ :: _ => false
  | h :: hs, c :: cs => h == c && startsWith hs cs

/-- JavaScript `indexOf`, searching `hay` for `needle` with `k` characters already
passed; `none` stands for -1.  The empty string is found at once. -/
def indexOfFrom (needle : List Char) : List Char → Nat → Option Nat
  | [], k => if needle.isEmpty then some k else none
  | c :: cs, k =>
    if startsWith (c :: cs) needle then some k else indexOfFrom needle cs (k + 1)

/-- `"1234qwerasdfzxcv".indexOf(e.key)`. -/
def keyIndex (key : String) : Option Nat :=
  indexOfFrom key.toList keyChars 0

/-- `this.keypad[k] = b`.  An assignment past the end extends the array; the elements
skipped read `undefined`, which is falsy. -/
def keypadSet (kp : List Bool) (k : Nat) (b : Bool) : List Bool :=
  if k < kp.length then kp.set k b
  else kp ++ List.replicate (k - kp.length) false ++ [b]

/-- The `keydown` listener, `key` being `e.key`. -/
def keydown (key : String) (s : C8JS) : C8JS :=
  match keyIndex key with
  | some k =>
    let s1 := { s with keypad := keypadSet s.keypad k true }
    if s1.waitingForKey then
      { s1 with v := setV s1.v s1.waitingRegister k, waitingForKey := false }
    else s1
  | none => s

/-- The `keyup` listener, `key` being `e.key`. -/
def keyup (key : String) (s : C8JS) : C8JS :=
  match keyIndex key with
  | some k => { s with keypad := keypadSet s.keypad k false }
  | none => s

/-! ## Auxiliary definitions for the analysis of `case 0xD000` -/

/-- Whether flipping the cells of `L` one after the other, starting from `d`, meets a
lit cell. -/
def hits (d : List Nat) : List Nat → Bool
  | [] => false
  | a :: L => lit d a || hits (flipCell d a) L

/-- The register file after `if (...) this.v[0xF] = 1` with condition `b`. -/
def mark (b : Bool) (v : Nat → Nat) : Nat → Nat :=
  if b then setV v 0xF 1 else v

/-- Flip the cells of `L` in order, setting VF to 1 when a lit cell is met. -/
def paint (L : List Nat) (s : C8JS) : C8JS :=
  { s with v := mark (hits s.display L) s.v, display := L.foldl flipCell s.display }

/-- The cell indices that the columns `cs` of one sprite row address when their bit is
set, for the origin `(vx, vy)`. -/
def rowCells (sprite vx vy row : Nat) (cs : List Nat) : List Nat :=
  (cs.filter (fun col => (sprite >>> (7 - col)) &&& 1 ≠ 0)).map
    (fun col => (vy + row) % rows * cols + (vx + col) % cols)

/-- The cell indices that the rows `rs` of the sprite at `i` address, in drawing
order. -/
def spriteCells (m : Nat → Nat) (i vx vy : Nat) (rs : List Nat) : List Nat :=
  rs.flatMap (fun row => rowCells ((memRead m (i + row)).getD 0) vx vy row (List.range 8))

/-- A framebuffer of `cols * rows` cells, each 0 or 1. -/
def wellFormed (d : List Nat) : Prop :=
  d.length = cols * rows ∧ ∀ c ∈ d, c = 0 ∨ c = 1

/-! ## Example states -/

/-- A freshly constructed machine whose memory holds `prog` from 0x200 on, with the
register file `regs`. -/
def machine (prog : List Nat) (regs : Nat → Nat) : C8JS :=
  { construct true true with
    memory := memSet fontMemory prog 0x200
    v := regs }

/-- `8014` with V0 = 200 and V1 = 100. -/
def addExample : C8JS :=
  machine [0x80, 0x14] (fun j => if j = 0 then 200 else if j = 1 then 100 else 0)

/-- `8F04` with VF = 1 and V0 = 1: the destination is the flag register. -/
def addFlagExample : C8JS :=
  machine [0x8F, 0x04] (fun j => if j = 0 then 1 else if j = 15 then 1 else 0)

/-- `8015` with V0 = 3 and V1 = 5. -/
def subExample : C8JS :=
  machine [0x80, 0x15] (fun j => if j = 0 then 3 else if j = 1 then 5 else 0)

/-- `8017` with V0 = 3 and V1 = 5. -/
def subnExample : C8JS :=
  machine [0x80, 0x17] (fun j => if j = 0 then 3 else if j = 1 then 5 else 0)

/-- `80F5` with V0 = 5 and VF = 3: the subtrahend is the flag register. -/
def subFlagExample : C8JS :=
  machine [0x80, 0xF5] (fun j => if j = 0 then 5 else if j = 15 then 3 else 0)

/-- `80F4` with V0 = 5 and VF = 3: the sibling instruction with the flag register as
second operand. -/
def addOperandFlagExample : C8JS :=
  machine [0x80, 0xF4] (fun j => if j = 0 then 5 else if j = 15 then 3 else 0)

/-- `80F7` with V0 = 3 and VF = 5: the minuend is the flag register. -/
def subnFlagExample : C8JS :=
  machine [0x80, 0xF7] (fun j => if j = 0 then 3 else if j = 15 then 5 else 0)

/-- `D011` twice in a row, V0 = V1 = 0, `i` = 0: the sprite is the top row `0xF0` of
the glyph for 0, drawn on an unlit screen. -/
def drawExample : C8JS :=
  machine [0xD0, 0x11, 0xD0, 0x11] (fun _ => 0)

/-- `D011` with V0 = 63, V1 = 0 and the sprite byte `0x80` at `i` = 0x202, on an unlit
screen. -/
def wrapExample : C8JS :=
  { machine [0xD0, 0x11, 0x80] (fun j => if j = 0 then 63 else 0) with i := 0x202 }

/-- A machine whose canvas was not found by the constructor, which left it halted. -/
def haltedExample : C8JS :=
  construct false false

/-- A machine waiting for a key after `F00A`. -/
def waitingExample : C8JS :=
  { machine [0xF0, 0x0A] (fun _ => 0) with
    waitingForKey := true
    pc := .num 0x202 }

/-- `2300` at 0x200 and `00EE` at 0x300, empty call stack. -/
def callExample : C8JS :=
  { construct true true with
    memory := memSet (memSet fontMemory [0x23, 0x00] 0x200) [0x00, 0xEE] 0x300 }

/-- `F30A` on a fresh machine. -/
def waitKeyExample : C8JS :=
  machine [0xF3, 0x0A] (fun _ => 0)

/-- A fresh machine with audio enabled and the sound timer at 1. -/
def soundExample : C8JS :=
  { construct true true with
    audioCtx := true
    soundTimer := 1 }

/-- `B300` with V0 = 2. -/
def jumpExample : C8JS :=
  machine [0xB3, 0x00] (fun j => if j = 0 then 2 else 0)

/-- `8018`, a word of the `8xyN` group that the inner `switch` does not list. -/
def unknownExample : C8JS :=
  machine [0x80, 0x18] (fun _ => 0)

/-- `5011` with V0 = V1 = 0, a word of the `5xyN` group with N = 1. -/
def skipExample : C8JS :=
  machine [0x50, 0x11] (fun _ => 0)

/-- `00EE` with an empty call stack. -/
def returnExample : C8JS :=
  machine [0x00, 0xEE] (fun _ => 0)

/-- `00E0` on a machine whose screen has one lit cell. -/
def clearExample : C8JS :=
  { machine [0x00, 0xE0] (fun _ => 0) with
    display := (List.replicate (cols * rows) 0).set 5 1 }

/-- `F033` with V0 = 254 and `i` = 0x300. -/
def bcdExample : C8JS :=
  { machine [0xF0, 0x33] (fun j => if j = 0 then 254 else 0) with i := 0x300 }

/-- `8016` with V0 = 201. -/
def shrExample : C8JS :=
  machine [0x80, 0x16] (fun j => if j = 0 then 201 else 0)

/-- `801E` with V0 = 201. -/
def shlExample : C8JS :=
  machine [0x80, 0x1E] (fun j => if j = 0 then 201 else 0)

/-! ## Instruction decoding -/

theorem shr_and_mask (op k w : Nat) :
    (op &&& ((2 ^ w - 1) <<< k)) >>> k = op / 2 ^ k % 2 ^ w := by
  apply Nat.eq_of_testBit_eq
  intro j
  rw [← Nat.shiftRight_eq_div_pow]
  simp only [Nat.testBit_shiftRight, Nat.testBit_and, Nat.testBit_mod_two_pow,
    Nat.testBit_shiftLeft, Nat.testBit_two_pow_sub_one]
  by_cases h : j < w <;> simp [h, Bool.and_comm]

theorem and_mask (op k w : Nat) :
    op &&& ((2 ^ w - 1) <<< k) = op / 2 ^ k % 2 ^ w * 2 ^ k := by
  apply Nat.eq_of_testBit_eq
  intro j
  rw [← Nat.shiftRight_eq_div_pow, ← Nat.shiftLeft_eq]
  simp only [Nat.testBit_shiftRight, Nat.testBit_and, Nat.testBit_mod_two_pow,
    Nat.testBit_shiftLeft, Nat.testBit_two_pow_sub_one]
  by_cases h : j ≥ k
  · have : k + (j - k) = j := by omega
    simp [h, this, Bool.and_comm]
  · simp [h]

theorem and_F000 (op : Nat) : op &&& 0xF000 = op / 4096 % 16 * 4096 :=
  and_mask op 12 4

theorem and_0F00_shr (op : Nat) : (op &&& 0x0F00) >>> 8 = op / 256 % 16 :=
  shr_and_mask op 8 4

theorem and_00F0_shr (op : Nat) : (op &&& 0x00F0) >>> 4 = op / 16 % 16 :=
  shr_and_mask op 4 4

theorem and_0FFF (op : Nat) : op &&& 0x0FFF = op % 4096 :=
  Nat.and_pow_two_sub_one_eq_mod op 12

theorem and_00FF (op : Nat) : op &&& 0x00FF = op % 256 :=
  Nat.and_pow_two_sub_one_eq_mod op 8

theorem and_000F (op : Nat) : op &&& 0x000F = op % 16 :=
  Nat.and_pow_two_sub_one_eq_mod op 4

theorem shl8_or (hi lo : Nat) (h : lo < 256) : (hi <<< 8) ||| lo = hi * 256 + lo := by
  rw [Nat.shiftLeft_eq, Nat.mul_comm]
  exact (@Nat.mul_add_lt_is_or 8 lo h hi).symm

/-- The six fields of an instruction word given by its four nibbles. -/
theorem decode_nibbles (g x y n : Nat) (hg : g < 16) (hx : x < 16) (hy : y < 16)
    (hn : n < 16) :
    (0x1000 * g + 0x100 * x + 0x10 * y + n) &&& 0xF000 = 0x1000 * g ∧
    ((0x1000 * g + 0x100 * x + 0x10 * y + n) &&& 0x0F00) >>> 8 = x ∧
    ((0x1000 * g + 0x100 * x + 0x10 * y + n) &&& 0x00F0) >>> 4 = y ∧
    (0x1000 * g + 0x100 * x + 0x10 * y + n) &&& 0x0FFF = 0x100 * x + 0x10 * y + n ∧
    (0x1000 * g + 0x100 * x + 0x10 * y + n) &&& 0x00FF = 0x10 * y + n ∧
    (0x1000 * g + 0x100 * x + 0x10 * y + n) &&& 0x000F = n := by
  rw [and_F000, and_0F00_shr, and_00F0_shr, and_0FFF, and_00FF, and_000F]
  omega

/-! ## Register writes -/

theorem setV_eq (v : Nat → Nat) (x val : Nat) (hx : x < 16) :
    setV v x val x = val % 256 := by
  simp [setV, regCount, hx]

theorem setV_ne (v : Nat → Nat) (x val j : Nat) (h : j ≠ x) :
    setV v x val j = v j := by
  simp [setV, h]

theorem and0xFF_eq (z : Int) : (and0xFF z : Int) = z % 256 := by
  unfold and0xFF
  omega

theorem and0xFF_lt (z : Int) : and0xFF z < 256 := by
  unfold and0xFF
  omega

/-! ## The frame of `step` -/

theorem step_running (rnd : Nat) (s : C8JS) (hw : s.waitingForKey = false)
    (hh : s.halted = false) :
    step rnd s =
      match dispatch rnd (fetch s.memory s.pc) { s with pc := s.pc.add 2 } with
      | .normal s1 => .normal (present s1)
      | .throw e s1 => .throw e s1 := by
  simp [step, hw, hh]

@[simp] theorem present_v (s : C8JS) : (present s).v = s.v := by
  unfold present drawScreen
  split
  · split <;> rfl
  · rfl

@[simp] theorem present_memory (s : C8JS) : (present s).memory = s.memory := by
  unfold present drawScreen
  split
  · split <;> rfl
  · rfl

@[simp] theorem present_display (s : C8JS) : (present s).display = s.display := by
  unfold present drawScreen
  split
  · split <;> rfl
  · rfl

@[simp] theorem present_stack (s : C8JS) : (present s).stack = s.stack := by
  unfold present drawScreen
  split
  · split <;> rfl
  · rfl

@[simp] theorem present_pc (s : C8JS) : (present s).pc = s.pc := by
  unfold present drawScreen
  split
  · split <;> rfl
  · rfl

@[simp] theorem present_i (s : C8JS) : (present s).i = s.i := by
  unfold present drawScreen
  split
  · split <;> rfl
  · rfl

@[simp] theorem present_waitingForKey (s : C8JS) :
    (present s).waitingForKey = s.waitingForKey := by
  unfold present drawScreen
  split
  · split <;> rfl
  · rfl

theorem present_of_not_drawFlag (s : C8JS) (h : s.drawFlag = false) : present s = s := by
  simp [present, h]

/-- A running machine executes `8xyn` by the `case 0x8000` block. -/
theorem step_8xyn (rnd : Nat) (s : C8JS) (x y n : Nat) (hx : x < 16) (hy : y < 16)
    (hn : n < 16) (hw : s.waitingForKey = false) (hh : s.halted = false)
    (hop : fetch s.memory s.pc = 0x8000 + 0x100 * x + 0x10 * y + n) :
    step rnd s = .normal (present (alu x y n { s with pc := s.pc.add 2 })) := by
  obtain ⟨h1, h2, h3, -, -, h6⟩ := decode_nibbles 8 x y n (by omega) hx hy hn
  rw [step_running rnd s hw hh, hop]
  simp only [dispatch]
  rw [h1, h2, h3, h6]

/-! ## Flipping cells -/

theorem flipCell_length (d : List Nat) (a : Nat) (h : a < d.length) :
    (flipCell d a).length = d.length := by
  simp [flipCell, h]

theorem flipCell_getD_self (d : List Nat) (a : Nat) (h : a < d.length) :
    (flipCell d a).getD a 0 = d.getD a 0 ^^^ 1 := by
  simp [flipCell, h]

theorem flipCell_getD_ne (d : List Nat) (a j : Nat) (h : a < d.length) (hj : j ≠ a) :
    (flipCell d a).getD j 0 = d.getD j 0 := by
  simp [flipCell, h, List.getElem?_set_ne (Ne.symm hj)]

theorem lit_flipCell_ne (d : List Nat) (a j : Nat) (h : a < d.length) (hj : j ≠ a) :
    lit (flipCell d a) j = lit d j := by
  unfold lit
  rw [flipCell_getD_ne d a j h hj]

theorem flips_length (L : List Nat) : ∀ d : List Nat, (∀ a ∈ L, a < d.length) →
    (L.foldl flipCell d).length = d.length := by
  induction L with
  | nil => intro d _; rfl
  | cons a L ih =>
    intro d h
    have ha : a < d.length := h a (List.mem_cons_self a L)
    rw [List.foldl_cons, ih, flipCell_length d a ha]
    intro b hb
    rw [flipCell_length d a ha]
    exact h b (List.mem_cons_of_mem a hb)

/-- After flipping pairwise distinct cells, exactly those cells have changed. -/
theorem flips_getD (L : List Nat) : ∀ d : List Nat, (∀ a ∈ L, a < d.length) → L.Nodup →
    ∀ j, (L.foldl flipCell d).getD j 0 =
      if j ∈ L then d.getD j 0 ^^^ 1 else d.getD j 0 := by
  induction L with
  | nil => intro d _ _ j; simp
  | cons a L ih =>
    intro d h hnd j
    have ha : a < d.length := h a (List.mem_cons_self a L)
    have hL : ∀ b ∈ L, b < (flipCell d a).length := by
      intro b hb
      rw [flipCell_length d a ha]
      exact h b (List.mem_cons_of_mem a hb)
    obtain ⟨haL, hnd1⟩ := List.nodup_cons.mp hnd
    rw [List.foldl_cons, ih (flipCell d a) hL hnd1 j]
    by_cases hja : j = a
    · subst hja
      rw [if_neg haL, if_pos (List.mem_cons_self j L), flipCell_getD_self d j ha]
    · rw [flipCell_getD_ne d a j ha hja]
      simp [hja]

/-- Flipping pairwise distinct cells meets a lit cell exactly when one of them is lit
at the start. -/
theorem hits_iff (L : List Nat) : ∀ d : List Nat, (∀ a ∈ L, a < d.length) → L.Nodup →
    (hits d L = true ↔ ∃ a ∈ L, lit d a = true) := by
  induction L with
  | nil => intro d _ _; simp [hits]
  | cons a L ih =>
    intro d h hnd
    have ha : a < d.length := h a (List.mem_cons_self a L)
    have hL : ∀ b ∈ L, b < (flipCell d a).length := by
      intro b hb
      rw [flipCell_length d a ha]
      exact h b (List.mem_cons_of_mem a hb)
    obtain ⟨haL, hnd1⟩ := List.nodup_cons.mp hnd
    rw [hits, Bool.or_eq_true, ih (flipCell d a) hL hnd1]
    constructor
    · rintro (h1 | ⟨b, hb, h2⟩)
      · exact ⟨a, List.mem_cons_self a L, h1⟩
      · have hba : b ≠ a := fun e => haL (e ▸ hb)
        rw [lit_flipCell_ne d a b ha hba] at h2
        exact ⟨b, List.mem_cons_of_mem a hb, h2⟩
    · rintro ⟨b, hb, h2⟩
      rcases List.mem_cons.mp hb with e | hb1
      · left; rw [← e]; exact h2
      · right
        have hba : b ≠ a := fun e => haL (e ▸ hb1)
        exact ⟨b, hb1, by rw [lit_flipCell_ne d a b ha hba]; exact h2⟩

theorem eq_of_getD_eq (d e : List Nat) (hlen : d.length = e.length)
    (h : ∀ j, d.getD j 0 = e.getD j 0) : d = e := by
  apply List.ext_getElem hlen
  intro j h1 h2
  have := h j
  simpa [List.getD_eq_getElem?_getD, List.getElem?_eq_getElem h1,
    List.getElem?_eq_getElem h2] using this

/-- Flipping the same pairwise distinct cells twice restores the list. -/
theorem flips_flips (L : List Nat) (d : List Nat) (h : ∀ a ∈ L, a < d.length)
    (hnd : L.Nodup) : L.foldl flipCell (L.foldl flipCell d) = d := by
  have hlen := flips_length L d h
  have h1 : ∀ a ∈ L, a < (L.foldl flipCell d).length := by
    intro a ha; rw [hlen]; exact h a ha
  apply eq_of_getD_eq
  · rw [flips_length L _ h1, hlen]
  · intro j
    rw [flips_getD L _ h1 hnd j, flips_getD L d h hnd j]
    split
    · rw [Nat.xor_assoc]; simp
    · rfl

theorem hits_append (L1 : List Nat) : ∀ (d : List Nat) (L2 : List Nat),
    hits d (L1 ++ L2) = (hits d L1 || hits (L1.foldl flipCell d) L2) := by
  induction L1 with
  | nil => intro d L2; simp [hits]
  | cons a L ih =>
    intro d L2
    rw [List.cons_append, hits, hits, List.foldl_cons, ih, Bool.or_assoc]

/-! ## The drawing loops as a list of flips -/

theorem mark_false (v : Nat → Nat) : mark false v = v := rfl

theorem mark_mark (b c : Bool) (v : Nat → Nat) : mark c (mark b v) = mark (b || c) v := by
  cases b <;> cases c <;> simp [mark]
  funext j
  by_cases h : j = 15 ∧ 15 < regCount <;> simp [setV, h]

theorem mark_ne (b : Bool) (v : Nat → Nat) (j : Nat) (h : j ≠ 0xF) : mark b v j = v j := by
  cases b
  · rfl
  · simp [mark, setV_ne _ _ _ _ h]

theorem paint_nil (s : C8JS) : paint [] s = s := rfl

theorem paint_append (L1 L2 : List Nat) (s : C8JS) :
    paint (L1 ++ L2) s = paint L2 (paint L1 s) := by
  simp [paint, hits_append, mark_mark]

theorem paint_v_ne (L : List Nat) (s : C8JS) (j : Nat) (h : j ≠ 0xF) :
    (paint L s).v j = s.v j :=
  mark_ne _ _ _ h

theorem rowCells_single (sprite vx vy row col : Nat) :
    rowCells sprite vx vy row [col] =
      if (sprite >>> (7 - col)) &&& 1 ≠ 0 then [(vy + row) % rows * cols + (vx + col) % cols]
      else [] := by
  unfold rowCells
  by_cases h : (sprite >>> (7 - col)) &&& 1 ≠ 0
  · rw [if_pos h]
    simp only [List.filter_cons, List.filter_nil, decide_eq_true h, if_true, List.map_cons,
      List.map_nil]
  · rw [if_neg h]
    simp only [List.filter_cons, List.filter_nil, decide_eq_false h, Bool.false_eq_true,
      if_false, List.map_nil]

theorem drawPixel_eq_paint (x y row sprite : Nat) (s : C8JS) (col : Nat) :
    drawPixel x y row sprite s col = paint (rowCells sprite (s.v x) (s.v y) row [col]) s := by
  rw [rowCells_single]
  unfold drawPixel
  by_cases hp : (sprite >>> (7 - col)) &&& 1 ≠ 0
  · simp only [if_pos hp]
    by_cases hl : lit s.display ((s.v y + row) % rows * cols + (s.v x + col) % cols) = true
    · simp only [paint, hits, hl, if_true, mark, Bool.or_false, List.foldl_cons, List.foldl_nil]
    · rw [Bool.not_eq_true] at hl
      simp only [paint, hits, hl, mark, Bool.or_false, List.foldl_cons, List.foldl_nil]
      rfl
  · simp only [if_neg hp]
    rfl

theorem rowCells_cons (sprite vx vy row c : Nat) (cs : List Nat) :
    rowCells sprite vx vy row (c :: cs) =
      rowCells sprite vx vy row [c] ++ rowCells sprite vx vy row cs := by
  unfold rowCells
  rw [← List.map_append, ← List.filter_append]
  rfl

theorem drawPixels_eq_paint (x y row sprite : Nat) (hx : x ≠ 0xF) (hy : y ≠ 0xF)
    (cs : List Nat) : ∀ s : C8JS,
    cs.foldl (drawPixel x y row sprite) s =
      paint (rowCells sprite (s.v x) (s.v y) row cs) s := by
  induction cs with
  | nil => intro s; rfl
  | cons c cs ih =>
    intro s
    rw [List.foldl_cons, ih (drawPixel x y row sprite s c), drawPixel_eq_paint,
      rowCells_cons sprite (s.v x) (s.v y) row c cs, paint_append,
      paint_v_ne _ _ _ hx, paint_v_ne _ _ _ hy]

theorem drawRow_eq_paint (x y : Nat) (hx : x ≠ 0xF) (hy : y ≠ 0xF) (s : C8JS) (row : Nat) :
    drawRow x y s row = paint (spriteCells s.memory s.i (s.v x) (s.v y) [row]) s := by
  unfold drawRow spriteCells
  simp [drawPixels_eq_paint x y row _ hx hy]

theorem spriteCells_cons (m : Nat → Nat) (i vx vy r : Nat) (rs : List Nat) :
    spriteCells m i vx vy (r :: rs) =
      spriteCells m i vx vy [r] ++ spriteCells m i vx vy rs := by
  simp [spriteCells]

theorem drawRows_eq_paint (x y : Nat) (hx : x ≠ 0xF) (hy : y ≠ 0xF) (rs : List Nat) :
    ∀ s : C8JS, rs.foldl (drawRow x y) s =
      paint (spriteCells s.memory s.i (s.v x) (s.v y) rs) s := by
  induction rs with
  | nil => intro s; rfl
  | cons r rs ih =>
    intro s
    rw [List.foldl_cons, ih (drawRow x y s r), drawRow_eq_paint x y hx hy,
      spriteCells_cons s.memory s.i (s.v x) (s.v y) r rs, paint_append,
      paint_v_ne _ _ _ hx, paint_v_ne _ _ _ hy]
    rfl

/-- The framebuffer after `Dxyn` when neither origin register is VF. -/
theorem draw_display (x y n : Nat) (hx : x ≠ 0xF) (hy : y ≠ 0xF) (s : C8JS) :
    (draw x y n s).display =
      (spriteCells s.memory s.i (s.v x) (s.v y) (List.range n)).foldl flipCell s.display := by
  unfold draw
  simp only [drawRows_eq_paint x y hx hy, paint, setV_ne _ _ _ _ hx, setV_ne _ _ _ _ hy]

/-- The flag after `Dxyn` when neither origin register is VF. -/
theorem draw_flag (x y n : Nat) (hx : x ≠ 0xF) (hy : y ≠ 0xF) (s : C8JS) :
    (draw x y n s).v 0xF =
      if hits s.display (spriteCells s.memory s.i (s.v x) (s.v y) (List.range n)) = true
      then 1 else 0 := by
  unfold draw
  simp only [drawRows_eq_paint x y hx hy, paint, setV_ne _ _ _ _ hx, setV_ne _ _ _ _ hy]
  split
  · rename_i h
    rw [h]
    simp [mark, setV, regCount]
  · rename_i h
    rw [Bool.not_eq_true] at h
    rw [h]
    simp [mark, setV, regCount]

/-! ## What the drawing loops leave alone -/

theorem drawPixel_frame (x y row sprite : Nat) (s : C8JS) (col : Nat) :
    (drawPixel x y row sprite s col).memory = s.memory ∧
    (drawPixel x y row sprite s col).i = s.i := by
  unfold drawPixel
  dsimp only
  split
  · split <;> exact ⟨rfl, rfl⟩
  · exact ⟨rfl, rfl⟩

theorem drawPixels_frame (x y row sprite : Nat) (cs : List Nat) : ∀ s : C8JS,
    (cs.foldl (drawPixel x y row sprite) s).memory = s.memory ∧
    (cs.foldl (drawPixel x y row sprite) s).i = s.i := by
  induction cs with
  | nil => intro s; exact ⟨rfl, rfl⟩
  | cons c cs ih =>
    intro s
    rw [List.foldl_cons]
    obtain ⟨h1, h2⟩ := ih (drawPixel x y row sprite s c)
    obtain ⟨h3, h4⟩ := drawPixel_frame x y row sprite s c
    exact ⟨h1.trans h3, h2.trans h4⟩

theorem drawRows_frame (x y : Nat) (rs : List Nat) : ∀ s : C8JS,
    (rs.foldl (drawRow x y) s).memory = s.memory ∧ (rs.foldl (drawRow x y) s).i = s.i := by
  induction rs with
  | nil => intro s; exact ⟨rfl, rfl⟩
  | cons r rs ih =>
    intro s
    rw [List.foldl_cons]
    obtain ⟨h1, h2⟩ := ih (drawRow x y s r)
    obtain ⟨h3, h4⟩ := drawPixels_frame x y r ((memRead s.memory (s.i + r)).getD 0)
      (List.range 8) s
    exact ⟨h1.trans h3, h2.trans h4⟩

theorem draw_frame (x y n : Nat) (s : C8JS) :
    (draw x y n s).memory = s.memory ∧ (draw x y n s).i = s.i := by
  unfold draw
  exact drawRows_frame x y (List.range n) _

/-! ## The cells a sprite addresses -/

theorem mem_rowCells (sprite vx vy row a : Nat) (cs : List Nat) :
    a ∈ rowCells sprite vx vy row cs ↔
      ∃ col ∈ cs, (sprite >>> (7 - col)) &&& 1 ≠ 0 ∧
        (vy + row) % rows * cols + (vx + col) % cols = a := by
  unfold rowCells
  rw [List.mem_map]
  constructor
  · rintro ⟨col, hc, rfl⟩
    rw [List.mem_filter] at hc
    exact ⟨col, hc.1, of_decide_eq_true hc.2, rfl⟩
  · rintro ⟨col, hc, hp, rfl⟩
    exact ⟨col, List.mem_filter.mpr ⟨hc, decide_eq_true hp⟩, rfl⟩

theorem mem_spriteCells (m : Nat → Nat) (i vx vy a : Nat) (rs : List Nat) :
    a ∈ spriteCells m i vx vy rs ↔
      ∃ row ∈ rs, a ∈ rowCells ((memRead m (i + row)).getD 0) vx vy row (List.range 8) := by
  unfold spriteCells
  rw [List.mem_flatMap]

theorem rowCells_lt (sprite vx vy row a : Nat) (cs : List Nat)
    (h : a ∈ rowCells sprite vx vy row cs) : a < cols * rows := by
  obtain ⟨col, -, -, rfl⟩ := (mem_rowCells _ _ _ _ _ _).mp h
  simp only [rows, cols]
  omega

theorem spriteCells_lt (m : Nat → Nat) (i vx vy a : Nat) (rs : List Nat)
    (h : a ∈ spriteCells m i vx vy rs) : a < cols * rows := by
  obtain ⟨row, -, h1⟩ := (mem_spriteCells _ _ _ _ _ _).mp h
  exact rowCells_lt _ _ _ _ _ _ h1

theorem rowCells_nodup (sprite vx vy row : Nat) :
    (rowCells sprite vx vy row (List.range 8)).Nodup := by
  unfold rowCells
  apply List.Nodup.map_on
  · intro a ha b hb hab
    have ha1 : a < 8 := List.mem_range.mp (List.mem_filter.mp ha).1
    have hb1 : b < 8 := List.mem_range.mp (List.mem_filter.mp hb).1
    simp only [rows, cols] at hab
    omega
  · exact (List.nodup_range 8).filter _

/-- A sprite of at most 32 rows addresses pairwise distinct cells. -/
theorem spriteCells_nodup (m : Nat → Nat) (i vx vy n : Nat) (hn : n ≤ 32) :
    (spriteCells m i vx vy (List.range n)).Nodup := by
  unfold spriteCells
  rw [List.nodup_flatMap]
  refine ⟨fun row _ => rowCells_nodup _ _ _ _, ?_⟩
  refine List.Pairwise.imp_of_mem ?_ (List.pairwise_lt_range n)
  intro r1 r2 h1 h2 hlt
  rw [Function.onFun, List.disjoint_left]
  intro a ha hb
  have h1n : r1 < n := List.mem_range.mp h1
  have h2n : r2 < n := List.mem_range.mp h2
  obtain ⟨c1, -, -, e1⟩ := (mem_rowCells _ _ _ _ _ _).mp ha
  obtain ⟨c2, -, -, e2⟩ := (mem_rowCells _ _ _ _ _ _).mp hb
  simp only [rows, cols] at e1 e2
  omega

theorem spriteCells_congr (m1 m2 : Nat → Nat) (i1 i2 vx vy : Nat) (rs : List Nat)
    (h : ∀ row ∈ rs, memRead m1 (i1 + row) = memRead m2 (i2 + row)) :
    spriteCells m1 i1 vx vy rs = spriteCells m2 i2 vx vy rs := by
  unfold spriteCells
  induction rs with
  | nil => rfl
  | cons r rs ih =>
    rw [List.flatMap_cons, List.flatMap_cons, h r (List.mem_cons_self r rs),
      ih (fun row hr => h row (List.mem_cons_of_mem r hr))]

/-- A running machine executes `Dxyn` by the `case 0xD000` block. -/
theorem step_Dxyn (rnd : Nat) (s : C8JS) (x y n : Nat) (hx : x < 16) (hy : y < 16)
    (hn : n < 16) (hw : s.waitingForKey = false) (hh : s.halted = false)
    (hop : fetch s.memory s.pc = 0xD000 + 0x100 * x + 0x10 * y + n) :
    step rnd s = .normal (present (draw x y n { s with pc := s.pc.add 2 })) := by
  obtain ⟨h1, h2, h3, -, -, h6⟩ := decode_nibbles 0xD x y n (by omega) hx hy hn
  rw [step_running rnd s hw hh, hop]
  simp only [dispatch]
  rw [h1, h2, h3, h6]

theorem step_Dxyn_display (rnd : Nat) (s : C8JS) (x y n : Nat) (hx : x < 16) (hy : y < 16)
    (hn : n < 16) (hxF : x ≠ 0xF) (hyF : y ≠ 0xF)
    (hw : s.waitingForKey = false) (hh : s.halted = false)
    (hop : fetch s.memory s.pc = 0xD000 + 0x100 * x + 0x10 * y + n) :
    (step rnd s).state.display =
      (spriteCells s.memory s.i (s.v x) (s.v y) (List.range n)).foldl flipCell s.display := by
  rw [step_Dxyn rnd s x y n hx hy hn hw hh hop]
  simp only [Completion.state, present_display]
  rw [draw_display x y n hxF hyF]

theorem step_Dxyn_flag (rnd : Nat) (s : C8JS) (x y n : Nat) (hx : x < 16) (hy : y < 16)
    (hn : n < 16) (hxF : x ≠ 0xF) (hyF : y ≠ 0xF)
    (hw : s.waitingForKey = false) (hh : s.halted = false)
    (hop : fetch s.memory s.pc = 0xD000 + 0x100 * x + 0x10 * y + n) :
    (step rnd s).state.v 0xF =
      if hits s.display (spriteCells s.memory s.i (s.v x) (s.v y) (List.range n)) = true
      then 1 else 0 := by
  rw [step_Dxyn rnd s x y n hx hy hn hw hh hop]
  simp only [Completion.state, present_v]
  rw [draw_flag x y n hxF hyF]

/-- `Dxyn` changes neither the memory nor the index register. -/
theorem step_Dxyn_frame (rnd : Nat) (s : C8JS) (x y n : Nat) (hx : x < 16) (hy : y < 16)
    (hn : n < 16) (hw : s.waitingForKey = false) (hh : s.halted = false)
    (hop : fetch s.memory s.pc = 0xD000 + 0x100 * x + 0x10 * y + n) :
    (step rnd s).state.memory = s.memory ∧ (step rnd s).state.i = s.i := by
  rw [step_Dxyn rnd s x y n hx hy hn hw hh hop]
  simp only [Completion.state, present_memory, present_i]
  exact draw_frame x y n _

/-! ## Arithmetic with flags: `8xy4`, `8xy5`, `8xy7` -/

/-- C1, amended.  On a running machine, `8xy4` with `x` other than the flag register
leaves `(Vx + Vy) mod 256` in register `x` and the carry, 1 when `Vx + Vy > 255` and 0
otherwise, in `VF`; `Vx` and `Vy` are the values before the step. -/
theorem add_8xy4_carry (rnd : Nat) (s : C8JS) (x y : Nat) (hx : x < 16) (hy : y < 16)
    (hxF : x ≠ 0xF) (hw : s.waitingForKey = false) (hh : s.halted = false)
    (hop : fetch s.memory s.pc = 0x8004 + 0x100 * x + 0x10 * y) :
    ∃ s1, step rnd s = .normal s1 ∧
      s1.v x = (s.v x + s.v y) % 256 ∧
      s1.v 0xF = (if s.v x + s.v y > 255 then 1 else 0) := by
  refine ⟨_, step_8xyn rnd s x y 4 hx hy (by omega) hw hh (by omega), ?_, ?_⟩
  · simp only [present_v, alu]
    rw [setV_eq _ _ _ hx, and_00FF, Nat.mod_mod]
  · have hFx : (15 : Nat) ≠ x := fun h => hxF h.symm
    simp only [present_v, alu]
    rw [setV_ne _ _ _ _ hFx, setV_eq _ _ _ (by decide)]
    split <;> rfl

/-- Witness for `add_8xy4_carry`: `8014` with V0 = 200, V1 = 100. -/
theorem add_8xy4_carry_witness :
    ∃ s1, step 0 addExample = .normal s1 ∧
      s1.v 0 = (addExample.v 0 + addExample.v 1) % 256 ∧
      s1.v 0xF = (if addExample.v 0 + addExample.v 1 > 255 then 1 else 0) :=
  add_8xy4_carry 0 addExample 0 1 (by decide) (by decide) (by decide) (by decide)
    (by decide) (by decide)

/-- C1 as stated fails when `x` is the flag register: on `8F04` with VF = 1 and V0 = 1
the sum is 2, so the claim asks for VF = 0 (no carry), while the step leaves VF = 2. -/
theorem add_8xy4_flag_destination :
    addFlagExample.waitingForKey = false ∧ addFlagExample.halted = false ∧
    fetch addFlagExample.memory addFlagExample.pc = 0x8004 + 0x100 * 0xF + 0x10 * 0 ∧
    addFlagExample.v 0xF + addFlagExample.v 0 = 2 ∧
    (step 0 addFlagExample).state.v 0xF = 2 ∧
    ¬ ((step 0 addFlagExample).state.v 0xF =
        (if addFlagExample.v 0xF + addFlagExample.v 0 > 255 then 1 else 0)) := by
  decide

/-- What `8xy5` and `8xy7` do on a running machine when neither `x` nor `y` is the flag
register: `8xy5` leaves VF = 1 exactly when `Vx > Vy` (0 otherwise) and register `x`
equal to `(Vx - Vy) mod 256`; `8xy7` leaves VF = 1 exactly when `Vy > Vx` (0 otherwise)
and register `x` equal to `(Vy - Vx) mod 256`; `Vx`, `Vy` are the values before the
step. -/
theorem sub_8xy5_8xy7_borrow (rnd : Nat) (s t : C8JS) (x y : Nat) (hx : x < 16)
    (hy : y < 16) (hxF : x ≠ 0xF) (hyF : y ≠ 0xF)
    (hsw : s.waitingForKey = false) (hsh : s.halted = false)
    (hs : fetch s.memory s.pc = 0x8005 + 0x100 * x + 0x10 * y)
    (htw : t.waitingForKey = false) (hth : t.halted = false)
    (ht : fetch t.memory t.pc = 0x8007 + 0x100 * x + 0x10 * y) :
    (∃ s1, step rnd s = .normal s1 ∧
      (s1.v 0xF = 1 ↔ s.v x > s.v y) ∧ (s1.v 0xF = 0 ↔ ¬ s.v x > s.v y) ∧
      (s1.v x : Int) = ((s.v x : Int) - (s.v y : Int)) % 256) ∧
    (∃ t1, step rnd t = .normal t1 ∧
      (t1.v 0xF = 1 ↔ t.v y > t.v x) ∧ (t1.v 0xF = 0 ↔ ¬ t.v y > t.v x) ∧
      (t1.v x : Int) = ((t.v y : Int) - (t.v x : Int)) % 256) := by
  have hFx : (15 : Nat) ≠ x := fun h => hxF h.symm
  constructor
  · refine ⟨_, step_8xyn rnd s x y 5 hx hy (by omega) hsw hsh (by omega), ?_, ?_, ?_⟩
    · simp only [present_v, alu]
      rw [setV_ne _ _ _ _ hFx, setV_eq _ _ _ (by decide)]
      split <;> simp [*]
    · simp only [present_v, alu]
      rw [setV_ne _ _ _ _ hFx, setV_eq _ _ _ (by decide)]
      split <;> simp [*]
    · simp only [present_v, alu]
      rw [setV_eq _ _ _ hx, setV_ne _ _ _ _ hxF, setV_ne _ _ _ _ hyF,
        Nat.mod_eq_of_lt (and0xFF_lt _), and0xFF_eq]
  · refine ⟨_, step_8xyn rnd t x y 7 hx hy (by omega) htw hth (by omega), ?_, ?_, ?_⟩
    · simp only [present_v, alu]
      rw [setV_ne _ _ _ _ hFx, setV_eq _ _ _ (by decide)]
      split <;> simp [*]
    · simp only [present_v, alu]
      rw [setV_ne _ _ _ _ hFx, setV_eq _ _ _ (by decide)]
      split <;> simp [*]
    · simp only [present_v, alu]
      rw [setV_eq _ _ _ hx, setV_ne _ _ _ _ hxF, setV_ne _ _ _ _ hyF,
        Nat.mod_eq_of_lt (and0xFF_lt _), and0xFF_eq]

/-- The instance `8015` and `8017` with V0 = 3, V1 = 5 of `sub_8xy5_8xy7_borrow`. -/
theorem sub_8xy5_8xy7_borrow_witness :
    (∃ s1, step 0 subExample = .normal s1 ∧
      (s1.v 0xF = 1 ↔ subExample.v 0 > subExample.v 1) ∧
      (s1.v 0xF = 0 ↔ ¬ subExample.v 0 > subExample.v 1) ∧
      (s1.v 0 : Int) = ((subExample.v 0 : Int) - (subExample.v 1 : Int)) % 256) ∧
    (∃ t1, step 0 subnExample = .normal t1 ∧
      (t1.v 0xF = 1 ↔ subnExample.v 1 > subnExample.v 0) ∧
      (t1.v 0xF = 0 ↔ ¬ subnExample.v 1 > subnExample.v 0) ∧
      (t1.v 0 : Int) = ((subnExample.v 1 : Int) - (subnExample.v 0 : Int)) % 256) :=
  sub_8xy5_8xy7_borrow 0 subExample subnExample 0 1 (by decide) (by decide) (by decide)
    (by decide) (by decide) (by decide) (by decide) (by decide) (by decide) (by decide)

/-- C2 fails on the code when `y` is the flag register and `x` is not.  On `80F5` with
V0 = 5, VF = 3 the claim asks for VF = 1 and V0 = (5 - 3) mod 256 = 2; the step leaves
VF = 1 but V0 = 4, because VF is written first and the subtraction reads it back.  On
`80F7` with V0 = 3, VF = 5 the claim asks for VF = 1 and V0 = (5 - 3) mod 256 = 2; the
step leaves VF = 1 but V0 = 254.  The sibling `80F4` with V0 = 5, VF = 3 takes its sum
before it writes VF and leaves V0 = 8, VF = 0 as the opcode table says. -/
theorem sub_8xy5_8xy7_flag_operand :
    (subFlagExample.waitingForKey = false ∧ subFlagExample.halted = false ∧
      fetch subFlagExample.memory subFlagExample.pc = 0x8005 + 0x100 * 0 + 0x10 * 0xF ∧
      subFlagExample.v 0 = 5 ∧ subFlagExample.v 0xF = 3 ∧
      (step 0 subFlagExample).error = none ∧
      (step 0 subFlagExample).state.v 0xF = 1 ∧
      (step 0 subFlagExample).state.v 0 = 4 ∧
      ¬ (((step 0 subFlagExample).state.v 0 : Int) =
          ((subFlagExample.v 0 : Int) - (subFlagExample.v 0xF : Int)) % 256)) ∧
    (subnFlagExample.waitingForKey = false ∧ subnFlagExample.halted = false ∧
      fetch subnFlagExample.memory subnFlagExample.pc = 0x8007 + 0x100 * 0 + 0x10 * 0xF ∧
      subnFlagExample.v 0 = 3 ∧ subnFlagExample.v 0xF = 5 ∧
      (step 0 subnFlagExample).error = none ∧
      (step 0 subnFlagExample).state.v 0xF = 1 ∧
      (step 0 subnFlagExample).state.v 0 = 254 ∧
      ¬ (((step 0 subnFlagExample).state.v 0 : Int) =
          ((subnFlagExample.v 0xF : Int) - (subnFlagExample.v 0 : Int)) % 256)) ∧
    (addOperandFlagExample.waitingForKey = false ∧ addOperandFlagExample.halted = false ∧
      fetch addOperandFlagExample.memory addOperandFlagExample.pc =
        0x8004 + 0x100 * 0 + 0x10 * 0xF ∧
      addOperandFlagExample.v 0 = 5 ∧ addOperandFlagExample.v 0xF = 3 ∧
      (step 0 addOperandFlagExample).state.v 0 =
        (addOperandFlagExample.v 0 + addOperandFlagExample.v 0xF) % 256 ∧
      (step 0 addOperandFlagExample).state.v 0 = 8 ∧
      (step 0 addOperandFlagExample).state.v 0xF = 0) := by
  decide

/-! ## Sprites: `Dxyn` -/

/-- C3.  Drawing the same sprite at the same origin twice in succession restores the
framebuffer.  `s` is a running machine with a 64x32 framebuffer about to execute `Dxyn`,
`x` and `y` not the flag register; `t` is a running machine about to execute the same
`Dxyn` on the framebuffer the first draw left, with the same origin registers and the
same sprite bytes.  After the second draw the framebuffer is that of `s`. -/
theorem draw_twice_restores (rnd rnd2 : Nat) (s t : C8JS) (x y n : Nat)
    (hx : x < 16) (hy : y < 16) (hn : n < 16) (hxF : x ≠ 0xF) (hyF : y ≠ 0xF)
    (hlen : s.display.length = cols * rows)
    (hsw : s.waitingForKey = false) (hsh : s.halted = false)
    (hs : fetch s.memory s.pc = 0xD000 + 0x100 * x + 0x10 * y + n)
    (htw : t.waitingForKey = false) (hth : t.halted = false)
    (ht : fetch t.memory t.pc = 0xD000 + 0x100 * x + 0x10 * y + n)
    (hd : t.display = (step rnd s).state.display)
    (hvx : t.v x = s.v x) (hvy : t.v y = s.v y)
    (hsp : ∀ row, row < n → memRead t.memory (t.i + row) = memRead s.memory (s.i + row)) :
    ∃ t1, step rnd2 t = .normal t1 ∧ t1.display = s.display := by
  refine ⟨_, step_Dxyn rnd2 t x y n hx hy hn htw hth ht, ?_⟩
  have h2 := step_Dxyn_display rnd2 t x y n hx hy hn hxF hyF htw hth ht
  rw [step_Dxyn rnd2 t x y n hx hy hn htw hth ht] at h2
  simp only [Completion.state] at h2
  rw [h2, hd, step_Dxyn_display rnd s x y n hx hy hn hxF hyF hsw hsh hs, hvx, hvy,
    spriteCells_congr t.memory s.memory t.i s.i (s.v x) (s.v y) (List.range n)
      (fun row hr => hsp row (List.mem_range.mp hr))]
  apply flips_flips
  · intro a ha
    rw [hlen]
    exact spriteCells_lt _ _ _ _ _ _ ha
  · exact spriteCells_nodup _ _ _ _ _ (by omega)

/-- Witness for `draw_twice_restores`: two consecutive `D011`. -/
theorem draw_twice_restores_witness :
    ∃ t1, step 0 (step 0 drawExample).state = .normal t1 ∧
      t1.display = drawExample.display :=
  draw_twice_restores 0 0 drawExample (step 0 drawExample).state 0 1 1
    (by decide) (by decide) (by decide) (by decide) (by decide)
    (by simp [drawExample, machine, construct])
    (by decide) (by decide) (by decide) (by decide!) (by decide!) (by decide!)
    rfl (by decide!) (by decide!)
    (fun row _ => by
      obtain ⟨hm, hi⟩ := step_Dxyn_frame 0 drawExample 0 1 1 (by decide) (by decide)
        (by decide) (by decide) (by decide) (by decide)
      rw [hm, hi])

theorem getD_binary (d : List Nat) (hbin : ∀ c ∈ d, c = 0 ∨ c = 1) (j : Nat) :
    d.getD j 0 = 0 ∨ d.getD j 0 = 1 := by
  by_cases hj : j < d.length
  · have hmem : d[j] ∈ d := List.getElem_mem hj
    have := hbin _ hmem
    simpa [List.getD_eq_getElem?_getD, List.getElem?_eq_getElem hj] using this
  · left
    simp [List.getD_eq_getElem?_getD, List.getElem?_eq_none (Nat.le_of_not_lt hj)]

/-- On a binary framebuffer, flipping pairwise distinct cells inverts the lit status of
exactly those cells. -/
theorem lit_flips (L : List Nat) (d : List Nat) (h : ∀ a ∈ L, a < d.length) (hnd : L.Nodup)
    (hbin : ∀ c ∈ d, c = 0 ∨ c = 1) (j : Nat) :
    lit (L.foldl flipCell d) j = if j ∈ L then !lit d j else lit d j := by
  unfold lit
  rw [flips_getD L d h hnd j]
  split
  · rcases getD_binary d hbin j with e | e <;> rw [e] <;> rfl
  · rfl

/-- C4, amended.  `s` is a running machine with a 64x32 binary framebuffer about to
execute `Dxyn`, `x` and `y` not the flag register; `t` is a running machine about to
execute the same `Dxyn` on the framebuffer the first draw left, with the same origin
registers and the same sprite bytes.  The first draw leaves VF = 1 exactly when it turned
off a cell that was lit (otherwise VF = 0), and the second draw leaves VF = 1 exactly
when the first draw turned on a cell that was unlit (otherwise VF = 0). -/
theorem draw_twice_flags (rnd rnd2 : Nat) (s t : C8JS) (x y n : Nat)
    (hx : x < 16) (hy : y < 16) (hn : n < 16) (hxF : x ≠ 0xF) (hyF : y ≠ 0xF)
    (hlen : s.display.length = cols * rows) (hbin : ∀ c ∈ s.display, c = 0 ∨ c = 1)
    (hsw : s.waitingForKey = false) (hsh : s.halted = false)
    (hs : fetch s.memory s.pc = 0xD000 + 0x100 * x + 0x10 * y + n)
    (htw : t.waitingForKey = false) (hth : t.halted = false)
    (ht : fetch t.memory t.pc = 0xD000 + 0x100 * x + 0x10 * y + n)
    (hd : t.display = (step rnd s).state.display)
    (hvx : t.v x = s.v x) (hvy : t.v y = s.v y)
    (hsp : ∀ row, row < n → memRead t.memory (t.i + row) = memRead s.memory (s.i + row)) :
    ∃ s1 t1, step rnd s = .normal s1 ∧ step rnd2 t = .normal t1 ∧
      (s1.v 0xF = 1 ↔ ∃ idx, lit s.display idx = true ∧ lit s1.display idx = false) ∧
      (s1.v 0xF = 0 ↔ ¬ ∃ idx, lit s.display idx = true ∧ lit s1.display idx = false) ∧
      (t1.v 0xF = 1 ↔ ∃ idx, lit s.display idx = false ∧ lit s1.display idx = true) ∧
      (t1.v 0xF = 0 ↔ ¬ ∃ idx, lit s.display idx = false ∧ lit s1.display idx = true) := by
  have hS := step_Dxyn rnd s x y n hx hy hn hsw hsh hs
  have hT := step_Dxyn rnd2 t x y n hx hy hn htw hth ht
  have hdS := step_Dxyn_display rnd s x y n hx hy hn hxF hyF hsw hsh hs
  have hfS := step_Dxyn_flag rnd s x y n hx hy hn hxF hyF hsw hsh hs
  have hfT := step_Dxyn_flag rnd2 t x y n hx hy hn hxF hyF htw hth ht
  rw [hd, hdS, hvx, hvy,
    spriteCells_congr t.memory s.memory t.i s.i (s.v x) (s.v y) (List.range n)
      (fun row hr => hsp row (List.mem_range.mp hr))] at hfT
  rw [hS] at hdS hfS
  rw [hT] at hfT
  simp only [Completion.state] at hdS hfS hfT
  have hb : ∀ a ∈ spriteCells s.memory s.i (s.v x) (s.v y) (List.range n),
      a < s.display.length := by
    intro a ha
    rw [hlen]
    exact spriteCells_lt _ _ _ _ _ _ ha
  have hnd := spriteCells_nodup s.memory s.i (s.v x) (s.v y) n (by omega)
  have hb1 : ∀ a ∈ spriteCells s.memory s.i (s.v x) (s.v y) (List.range n),
      a < ((spriteCells s.memory s.i (s.v x) (s.v y) (List.range n)).foldl flipCell
        s.display).length := by
    intro a ha
    rw [flips_length _ _ hb]
    exact hb a ha
  have hlit := lit_flips _ s.display hb hnd hbin
  have h1 := hits_iff _ s.display hb hnd
  have h2 := hits_iff _ _ hb1 hnd
  have e1 : (∃ idx, lit s.display idx = true ∧
      lit (present (draw x y n { s with pc := s.pc.add 2 })).display idx = false) ↔
      hits s.display (spriteCells s.memory s.i (s.v x) (s.v y) (List.range n)) = true := by
    rw [h1, hdS]
    constructor
    · rintro ⟨idx, ha, hb2⟩
      rw [hlit idx] at hb2
      by_cases hm : idx ∈ spriteCells s.memory s.i (s.v x) (s.v y) (List.range n)
      · exact ⟨idx, hm, ha⟩
      · rw [if_neg hm, ha] at hb2
        exact absurd hb2 (by decide)
    · rintro ⟨a, hm, ha⟩
      refine ⟨a, ha, ?_⟩
      rw [hlit a, if_pos hm, ha]
      rfl
  have e2 : (∃ idx, lit s.display idx = false ∧
      lit (present (draw x y n { s with pc := s.pc.add 2 })).display idx = true) ↔
      hits ((spriteCells s.memory s.i (s.v x) (s.v y) (List.range n)).foldl flipCell
        s.display) (spriteCells s.memory s.i (s.v x) (s.v y) (List.range n)) = true := by
    rw [h2, hdS]
    constructor
    · rintro ⟨idx, ha, hb2⟩
      rw [hlit idx] at hb2
      by_cases hm : idx ∈ spriteCells s.memory s.i (s.v x) (s.v y) (List.range n)
      · refine ⟨idx, hm, ?_⟩
        rw [hlit idx, if_pos hm, ha]
        rfl
      · rw [if_neg hm, ha] at hb2
        exact absurd hb2 (by decide)
    · rintro ⟨a, hm, ha⟩
      rw [hlit a, if_pos hm] at ha
      refine ⟨a, by simpa using ha, ?_⟩
      rw [hlit a, if_pos hm]
      exact ha
  refine ⟨_, _, hS, hT, ?_, ?_, ?_, ?_⟩
  · rw [e1, hfS]
    split <;> simp [*]
  · rw [e1, hfS]
    split <;> simp [*]
  · rw [e2, hfT]
    split <;> simp [*]
  · rw [e2, hfT]
    split <;> simp [*]

/-- Witness for `draw_twice_flags`: two consecutive `D011` on an unlit screen. -/
theorem draw_twice_flags_witness :
    ∃ s1 t1, step 0 drawExample = .normal s1 ∧
      step 0 (step 0 drawExample).state = .normal t1 ∧
      (s1.v 0xF = 1 ↔ ∃ idx, lit drawExample.display idx = true ∧
        lit s1.display idx = false) ∧
      (s1.v 0xF = 0 ↔ ¬ ∃ idx, lit drawExample.display idx = true ∧
        lit s1.display idx = false) ∧
      (t1.v 0xF = 1 ↔ ∃ idx, lit drawExample.display idx = false ∧
        lit s1.display idx = true) ∧
      (t1.v 0xF = 0 ↔ ¬ ∃ idx, lit drawExample.display idx = false ∧
        lit s1.display idx = true) :=
  draw_twice_flags 0 0 drawExample (step 0 drawExample).state 0 1 1
    (by decide) (by decide) (by decide) (by decide) (by decide)
    (by simp [drawExample, machine, construct])
    (fun _ hc => Or.inl (List.eq_of_mem_replicate hc))
    (by decide) (by decide) (by decide) (by decide!) (by decide!) (by decide!)
    rfl (by decide!) (by decide!)
    (fun row _ => by
      obtain ⟨hm, hi⟩ := step_Dxyn_frame 0 drawExample 0 1 1 (by decide) (by decide)
        (by decide) (by decide) (by decide) (by decide)
      rw [hm, hi])

/-- C4 as stated fails: on an unlit screen the first `D011` (sprite row `0xF0`) meets no
lit cell and leaves VF = 0, while the second one erases what the first drew and leaves
VF = 1. -/
theorem draw_twice_flags_differ :
    drawExample.waitingForKey = false ∧ drawExample.halted = false ∧
    fetch drawExample.memory drawExample.pc = 0xD000 + 0x100 * 0 + 0x10 * 1 + 1 ∧
    (step 0 drawExample).state.waitingForKey = false ∧
    (step 0 drawExample).state.halted = false ∧
    fetch (step 0 drawExample).state.memory (step 0 drawExample).state.pc =
      0xD000 + 0x100 * 0 + 0x10 * 1 + 1 ∧
    (step 0 drawExample).state.v 0xF = 0 ∧
    (step 0 (step 0 drawExample).state).state.v 0xF = 1 ∧
    ¬ ((step 0 (step 0 drawExample).state).state.v 0xF =
        (step 0 drawExample).state.v 0xF) := by
  decide!

/-! ## An unlit screen -/

theorem lit_replicate (N j : Nat) : lit (List.replicate N 0) j = false := by
  unfold lit
  rw [List.getD_eq_getElem?_getD, List.getElem?_replicate]
  split <;> rfl

theorem flipCell_replicate (N j : Nat) (h : j < N) :
    flipCell (List.replicate N 0) j = (List.replicate N 0).set j 1 := by
  unfold flipCell
  rw [List.length_replicate, if_pos h, List.getD_eq_getElem?_getD, List.getElem?_replicate,
    if_pos h]
  rfl

theorem lit_set_replicate (N j k : Nat) (h : j < N) :
    lit ((List.replicate N 0).set j 1) k = true ↔ k = j := by
  unfold lit
  rw [List.getD_eq_getElem?_getD, List.getElem?_set]
  by_cases hk : j = k
  · subst hk
    simp [h]
  · rw [if_neg hk, List.getElem?_replicate]
    constructor
    · intro h1
      split at h1 <;> simp at h1
    · intro h1
      exact absurd h1.symm hk

theorem drawRow_0x80 (x y : Nat) (s0 : C8JS) (hvx : s0.v x = 63) (hvy : s0.v y = 0)
    (hd : s0.display = List.replicate (cols * rows) 0)
    (hsp : memRead s0.memory (s0.i + 0) = some 0x80) :
    drawRow x y s0 0 = { s0 with display := (List.replicate (cols * rows) 0).set 63 1 } := by
  have hr : List.range 8 = [0, 1, 2, 3, 4, 5, 6, 7] := by decide
  have p0 : drawPixel x y 0 0x80 s0 0 =
      { s0 with display := (List.replicate (cols * rows) 0).set 63 1 } := by
    rw [drawPixel_eq_paint, rowCells_single, if_pos (by decide), hvx, hvy]
    show paint [63] s0 = _
    unfold paint
    simp only [hits, hd, lit_replicate, Bool.or_false, mark, Bool.false_eq_true, if_false,
      List.foldl_cons, List.foldl_nil, flipCell_replicate _ 63 (by decide : 63 < cols * rows)]
  have pk : ∀ (t : C8JS) (k : Nat), 0 < k → k < 8 → drawPixel x y 0 0x80 t k = t := by
    intro t k h1 h2
    have h0 : ¬ ((0x80 >>> (7 - k)) &&& 1 ≠ 0) := by
      interval_cases k <;> decide
    rw [drawPixel_eq_paint, rowCells_single, if_neg h0]
    rfl
  unfold drawRow
  rw [hsp, hr]
  simp only [Option.getD_some, List.foldl_cons, List.foldl_nil]
  rw [p0, pk _ 1 (by decide) (by decide), pk _ 2 (by decide) (by decide),
    pk _ 3 (by decide) (by decide), pk _ 4 (by decide) (by decide),
    pk _ 5 (by decide) (by decide), pk _ 6 (by decide) (by decide),
    pk _ 7 (by decide) (by decide)]

/-- C5, amended.  On a running machine with an unlit 64x32 framebuffer, register `x`
(not the flag register) holding 63, register `y` holding 0 and the byte `0x80` at the
index register, `Dxy1` lights exactly one cell, and that cell is row 0, column 63. -/
theorem draw_0x80_at_63 (rnd : Nat) (s : C8JS) (x y : Nat) (hx : x < 16) (hy : y < 16)
    (hxF : x ≠ 0xF) (hw : s.waitingForKey = false) (hh : s.halted = false)
    (hop : fetch s.memory s.pc = 0xD001 + 0x100 * x + 0x10 * y)
    (hd : s.display = List.replicate (cols * rows) 0)
    (hvx : s.v x = 63) (hvy : s.v y = 0) (hsp : memRead s.memory s.i = some 0x80) :
    ∃ s1, step rnd s = .normal s1 ∧ s1.display.length = cols * rows ∧
      ∀ r c, r < rows → c < cols →
        (lit s1.display (r * cols + c) = true ↔ r = 0 ∧ c = 63) := by
  refine ⟨_, step_Dxyn rnd s x y 1 hx hy (by decide) hw hh (by omega), ?_⟩
  have h0 : (setV s.v 0xF 0) y = 0 := by
    by_cases hyF : y = 0xF
    · subst hyF; exact setV_eq _ _ _ (by decide)
    · rw [setV_ne _ _ _ _ hyF, hvy]
  have hdraw : (draw x y 1 { s with pc := s.pc.add 2 }).display =
      (List.replicate (cols * rows) 0).set 63 1 := by
    unfold draw
    have hr1 : List.range 1 = [0] := by decide
    simp only [hr1, List.foldl_cons, List.foldl_nil]
    have hrow := drawRow_0x80 x y { s with pc := s.pc.add 2, v := setV s.v 0xF 0 }
      (by show setV s.v 0xF 0 x = 63; rw [setV_ne _ _ _ _ hxF, hvx]) h0 hd hsp
    rw [hrow]
  rw [present_display, hdraw]
  refine ⟨by rw [List.length_set, List.length_replicate], ?_⟩
  intro r c hr hc
  rw [lit_set_replicate _ _ _ (by decide : 63 < cols * rows)]
  simp only [rows, cols] at hr hc ⊢
  omega

/-- Witness for `draw_0x80_at_63`: `D011` with V0 = 63, V1 = 0. -/
theorem draw_0x80_at_63_witness :
    ∃ s1, step 0 wrapExample = .normal s1 ∧ s1.display.length = cols * rows ∧
      ∀ r c, r < rows → c < cols →
        (lit s1.display (r * cols + c) = true ↔ r = 0 ∧ c = 63) :=
  draw_0x80_at_63 0 wrapExample 0 1 (by decide) (by decide) (by decide) (by decide)
    (by decide) (by decide) rfl (by decide) (by decide) (by decide)

/-- C5 as stated fails: with V0 = 63, V1 = 0 and the sprite byte `0x80`, `D011` on an
unlit screen leaves row 0, column 0 unlit and lights row 0, column 63. -/
theorem draw_0x80_not_column_0 :
    wrapExample.waitingForKey = false ∧ wrapExample.halted = false ∧
    fetch wrapExample.memory wrapExample.pc = 0xD001 + 0x100 * 0 + 0x10 * 1 ∧
    wrapExample.display = List.replicate (cols * rows) 0 ∧
    wrapExample.v 0 = 63 ∧ wrapExample.v 1 = 0 ∧
    memRead wrapExample.memory wrapExample.i = some 0x80 ∧
    lit (step 0 wrapExample).state.display (0 * cols + 0) = false ∧
    lit (step 0 wrapExample).state.display (0 * cols + 63) = true := by
  decide!

/-! ## reset -/

theorem fontSet_length : fontSet.length = 80 := rfl

theorem fontMemory_font (a : Nat) (h : a < fontSet.length) :
    fontMemory a = fontSet.get ⟨a, h⟩ := by
  unfold fontMemory
  rw [List.getD_eq_getElem?_getD, List.getElem?_eq_getElem h]
  rfl

theorem fontMemory_zero (a : Nat) (h : 0x050 ≤ a) : fontMemory a = 0 := by
  unfold fontMemory
  rw [List.getD_eq_getElem?_getD, List.getElem?_eq_none (by rw [fontSet_length]; omega)]
  rfl

theorem reset_memory (s : C8JS) : (reset s).memory = fontMemory := rfl

/-- C6.  After `reset()`, from any state: the program counter is 0x200, the index
register 0, the call stack empty, the 16 registers 0, both timers 0, memory 0x000..0x04F
holds the 80 bytes of the font table, memory 0x050..0xFFF is 0, the framebuffer is 64x32
unlit cells and the 16 keys are unpressed. -/
theorem reset_state (s : C8JS) :
    (reset s).pc = .num 0x200 ∧ (reset s).i = 0 ∧ (reset s).stack = [] ∧
    (∀ j, (reset s).v j = 0) ∧
    (reset s).delayTimer = 0 ∧ (reset s).soundTimer = 0 ∧
    (∀ a (h : a < fontSet.length), memRead (reset s).memory a = some (fontSet.get ⟨a, h⟩)) ∧
    (∀ a, 0x050 ≤ a → a ≤ 0xFFF → memRead (reset s).memory a = some 0) ∧
    (reset s).display = List.replicate (64 * 32) 0 ∧
    (reset s).keypad = List.replicate 16 false := by
  refine ⟨rfl, rfl, rfl, fun _ => rfl, rfl, rfl, ?_, ?_, rfl, rfl⟩
  · intro a h
    have h80 : a < 80 := h
    have hm : a < memSize := by unfold memSize; omega
    rw [reset_memory, memRead, if_pos hm, fontMemory_font a h]
  · intro a h1 h2
    have hm : a < memSize := by unfold memSize; omega
    rw [reset_memory, memRead, if_pos hm, fontMemory_zero a h1]

/-! ## Single instructions -/

theorem dispatch_6xnn (rnd x nn : Nat) (s : C8JS) (hx : x < 16) (hnn : nn < 256) :
    dispatch rnd (0x6000 + 0x100 * x + nn) s = .normal { s with v := setV s.v x nn } := by
  have h1 : (0x6000 + 0x100 * x + nn) &&& 0xF000 = 0x6000 := by rw [and_F000]; omega
  have h2 : ((0x6000 + 0x100 * x + nn) &&& 0x0F00) >>> 8 = x := by rw [and_0F00_shr]; omega
  have h5 : (0x6000 + 0x100 * x + nn) &&& 0x00FF = nn := by rw [and_00FF]; omega
  simp only [dispatch]
  rw [h1, h2, h5]

theorem dispatch_7xnn (rnd x nn : Nat) (s : C8JS) (hx : x < 16) (hnn : nn < 256) :
    dispatch rnd (0x7000 + 0x100 * x + nn) s =
      .normal { s with v := setV s.v x ((s.v x + nn) &&& 0xFF) } := by
  have h1 : (0x7000 + 0x100 * x + nn) &&& 0xF000 = 0x7000 := by rw [and_F000]; omega
  have h2 : ((0x7000 + 0x100 * x + nn) &&& 0x0F00) >>> 8 = x := by rw [and_0F00_shr]; omega
  have h5 : (0x7000 + 0x100 * x + nn) &&& 0x00FF = nn := by rw [and_00FF]; omega
  simp only [dispatch]
  rw [h1, h2, h5]

theorem dispatch_2nnn (rnd nnn : Nat) (s : C8JS) (hn : nnn < 4096) :
    dispatch rnd (0x2000 + nnn) s =
      .normal { s with stack := s.stack ++ [s.pc], pc := .num nnn } := by
  have h1 : (0x2000 + nnn) &&& 0xF000 = 0x2000 := by rw [and_F000]; omega
  have h4 : (0x2000 + nnn) &&& 0x0FFF = nnn := by rw [and_0FFF]; omega
  simp only [dispatch]
  rw [h1, h4]

theorem dispatch_00EE (rnd : Nat) (s : C8JS) :
    dispatch rnd 0x00EE s =
      .normal { s with pc := s.stack.getLast?.getD .undefined, stack := s.stack.dropLast } := by
  rfl

theorem dispatch_0000 (rnd : Nat) (s : C8JS) : dispatch rnd 0 s = .normal s := by
  rfl

theorem fetch_bytes (m : Nat → Nat) (p hi lo : Nat) (hp : p + 1 < memSize)
    (hhi : m p = hi) (hlo : m (p + 1) = lo) (hl : lo < 256) :
    fetch m (.num p) = hi * 256 + lo := by
  have hp0 : p < memSize := by omega
  simp only [fetch, memReadAt, JsVal.add, memRead, if_pos hp, if_pos hp0, Option.getD_some,
    hhi, hlo]
  exact shl8_or hi lo hl

/-- C7, amended.  After `reset()` of a machine that is not halted, whether or not it
was waiting for a key, the machine is neither waiting nor halted and the next `step()`
fetches and executes the instruction at 0x200; as `reset()` leaves memory zero from 0x050
on, that instruction is `0000` and the step ends with the program counter at 0x202. -/
theorem reset_running (rnd : Nat) (s : C8JS) (hh : s.halted = false) :
    (reset s).waitingForKey = false ∧ (reset s).halted = false ∧
    (reset s).pc = .num 0x200 ∧
    step rnd (reset s) =
      (match dispatch rnd (fetch (reset s).memory (.num 0x200))
          { reset s with pc := .num 0x202 } with
        | .normal s1 => .normal (present s1)
        | .throw e s1 => .throw e s1) ∧
    fetch (reset s).memory (.num 0x200) = 0x0000 ∧
    step rnd (reset s) = .normal { reset s with pc := .num 0x202 } := by
  have hf : fetch (reset s).memory (.num 0x200) = 0 := by
    show fetch fontMemory (.num 0x200) = 0
    decide
  have h1 : step rnd (reset s) =
      (match dispatch rnd (fetch (reset s).memory (.num 0x200))
          { reset s with pc := .num 0x202 } with
        | .normal s1 => .normal (present s1)
        | .throw e s1 => .throw e s1) :=
    step_running rnd (reset s) rfl hh
  refine ⟨rfl, hh, rfl, h1, hf, ?_⟩
  rw [h1, hf, dispatch_0000]
  rfl

/-- Witness for `reset_running`: a machine waiting for a key. -/
theorem reset_running_witness :
    (reset waitingExample).waitingForKey = false ∧ (reset waitingExample).halted = false ∧
    (reset waitingExample).pc = .num 0x200 ∧
    step 0 (reset waitingExample) =
      (match dispatch 0 (fetch (reset waitingExample).memory (.num 0x200))
          { reset waitingExample with pc := .num 0x202 } with
        | .normal s1 => .normal (present s1)
        | .throw e s1 => .throw e s1) ∧
    fetch (reset waitingExample).memory (.num 0x200) = 0x0000 ∧
    step 0 (reset waitingExample) = .normal { reset waitingExample with pc := .num 0x202 } :=
  reset_running 0 waitingExample (by decide)

/-- C7 as stated fails for a halted machine: `reset()` does not touch `halted`, so the
machine is still halted afterwards and the next `step()` returns at its guard, leaving
the program counter at 0x200. -/
theorem reset_keeps_halted :
    haltedExample.halted = true ∧ (reset haltedExample).halted = true ∧
    (reset haltedExample).pc = .num 0x200 ∧
    (step 0 (reset haltedExample)).state.pc = .num 0x200 := by
  decide

/-! ## loadROM -/

/-- C8, amended.  A program of exactly 0xFFF - 0x200 + 1 = 3584 bytes loads: byte `k`
lands at `0x200 + k`, the last one at 0xFFF, and the font table is intact.  A program
one byte longer is neither truncated nor written: `loadROM` has no length check and no
fault of its own, `reset()` runs first, and then `memory.set` raises a `RangeError`
before writing.  The call ends with that exception in the state `reset()` left: memory
is zero from 0x200 on, and `halted` is what it was before the call. -/
theorem loadROM_boundary (s : C8JS) (rom big : List Nat)
    (hrom : rom.length = 0xFFF - 0x200 + 1) (hbytes : ∀ b ∈ rom, b < 256)
    (hbig : big.length = 0xFFF - 0x200 + 2) :
    (∃ s1, loadROM s rom = .normal s1 ∧
      (∀ k (h : k < rom.length), memRead s1.memory (0x200 + k) = some (rom.get ⟨k, h⟩)) ∧
      (∀ a (h : a < fontSet.length), memRead s1.memory a = some (fontSet.get ⟨a, h⟩))) ∧
    (∃ s2, loadROM s big = .throw .RangeError s2 ∧ s2 = reset s ∧
      s2.halted = s.halted ∧ s2.memory = (reset s).memory ∧
      ∀ a, 0x200 ≤ a → a ≤ 0xFFF → memRead s2.memory a = some 0) := by
  constructor
  · refine ⟨_, by unfold loadROM; simp only [hrom, memSize]; rfl, ?_, ?_⟩
    · intro k h
      have hk : k < 3584 := by rw [hrom] at h; exact h
      have hm : 0x200 + k < memSize := by unfold memSize; omega
      have hb : rom[k] < 256 := hbytes _ (List.getElem_mem h)
      simp only [memRead, if_pos hm, memSet]
      rw [if_pos ⟨by omega, by omega⟩, List.getD_eq_getElem?_getD,
        show 0x200 + k - 0x200 = k by omega, List.getElem?_eq_getElem h]
      simp only [Option.getD_some]
      rw [Nat.mod_eq_of_lt hb]
      rfl
    · intro a h
      have h80 : a < 80 := h
      have hm : a < memSize := by unfold memSize; omega
      simp only [memRead, if_pos hm, memSet]
      rw [if_neg (by omega), reset_memory, fontMemory_font a h]
  · refine ⟨_, by unfold loadROM; simp only [hbig, memSize]; rfl, rfl, rfl, rfl, ?_⟩
    intro a h1 h2
    have hm : a < memSize := by unfold memSize; omega
    rw [reset_memory, memRead, if_pos hm, fontMemory_zero a (by omega)]

/-- Witness for `loadROM_boundary`: 3584 and 3585 bytes of value 7. -/
theorem loadROM_boundary_witness :
    (∃ s1, loadROM haltedExample (List.replicate 3584 7) = .normal s1 ∧
      (∀ k (h : k < (List.replicate 3584 7).length),
        memRead s1.memory (0x200 + k) = some ((List.replicate 3584 7).get ⟨k, h⟩)) ∧
      (∀ a (h : a < fontSet.length), memRead s1.memory a = some (fontSet.get ⟨a, h⟩))) ∧
    (∃ s2, loadROM haltedExample (List.replicate 3585 7) = .throw .RangeError s2 ∧
      s2 = reset haltedExample ∧ s2.halted = haltedExample.halted ∧
      s2.memory = (reset haltedExample).memory ∧
      ∀ a, 0x200 ≤ a → a ≤ 0xFFF → memRead s2.memory a = some 0) :=
  loadROM_boundary haltedExample (List.replicate 3584 7) (List.replicate 3585 7)
    (List.length_replicate 3584 7)
    (fun b hb => by rw [List.eq_of_mem_replicate hb]; decide)
    (List.length_replicate 3585 7)

/-- C8 as stated fails for a 3585-byte program loaded into the running machine
`addExample` (V0 = 200, `8014` at 0x200).  The call ends with the `RangeError` of
`memory.set`, the only failure the code has there, and not with a fault that halts:
afterwards the machine is not halted, `reset()` has wiped the registers and the program
that was loaded before, and the next `step()` executes the word 0 at 0x200. -/
theorem loadROM_too_large_keeps_running :
    addExample.waitingForKey = false ∧ addExample.halted = false ∧
    addExample.v 0 = 200 ∧ fetch addExample.memory addExample.pc = 0x8014 ∧
    (List.replicate 3585 7).length = 0xFFF - 0x200 + 2 ∧
    (loadROM addExample (List.replicate 3585 7)).error = some .RangeError ∧
    (loadROM addExample (List.replicate 3585 7)).state.halted = false ∧
    (loadROM addExample (List.replicate 3585 7)).state.waitingForKey = false ∧
    (loadROM addExample (List.replicate 3585 7)).state.v 0 = 0 ∧
    fetch (loadROM addExample (List.replicate 3585 7)).state.memory
      (loadROM addExample (List.replicate 3585 7)).state.pc = 0 ∧
    (step 0 (loadROM addExample (List.replicate 3585 7)).state).error = none ∧
    (step 0 (loadROM addExample (List.replicate 3585 7)).state).state.pc = .num 0x202 := by
  decide!

theorem memSet_at (m : Nat → Nat) (rom : List Nat) (off k : Nat) (h : k < rom.length) :
    memSet m rom off (off + k) = rom.get ⟨k, h⟩ % 256 := by
  unfold memSet
  rw [if_pos ⟨by omega, by omega⟩, List.getD_eq_getElem?_getD,
    show off + k - off = k by omega, List.getElem?_eq_getElem h]
  rfl

theorem step_6xnn (rnd : Nat) (s : C8JS) (x nn : Nat) (hx : x < 16) (hnn : nn < 256)
    (hw : s.waitingForKey = false) (hh : s.halted = false) (hdf : s.drawFlag = false)
    (hop : fetch s.memory s.pc = 0x6000 + 0x100 * x + nn) :
    step rnd s = .normal { s with pc := s.pc.add 2, v := setV s.v x nn } := by
  rw [step_running rnd s hw hh, hop, dispatch_6xnn rnd x nn _ hx hnn]
  exact congrArg Completion.normal (present_of_not_drawFlag _ hdf)

theorem step_7xnn (rnd : Nat) (s : C8JS) (x nn : Nat) (hx : x < 16) (hnn : nn < 256)
    (hw : s.waitingForKey = false) (hh : s.halted = false) (hdf : s.drawFlag = false)
    (hop : fetch s.memory s.pc = 0x7000 + 0x100 * x + nn) :
    step rnd s =
      .normal { s with pc := s.pc.add 2, v := setV s.v x ((s.v x + nn) &&& 0xFF) } := by
  rw [step_running rnd s hw hh, hop, dispatch_7xnn rnd x nn _ hx hnn]
  exact congrArg Completion.normal (present_of_not_drawFlag _ hdf)

theorem step_2nnn (rnd : Nat) (s : C8JS) (nnn : Nat) (hn : nnn < 4096)
    (hw : s.waitingForKey = false) (hh : s.halted = false) (hdf : s.drawFlag = false)
    (hop : fetch s.memory s.pc = 0x2000 + nnn) :
    step rnd s = .normal { s with stack := s.stack ++ [s.pc.add 2], pc := .num nnn } := by
  rw [step_running rnd s hw hh, hop, dispatch_2nnn rnd nnn _ hn]
  exact congrArg Completion.normal (present_of_not_drawFlag _ hdf)

theorem step_00EE (rnd : Nat) (s : C8JS)
    (hw : s.waitingForKey = false) (hh : s.halted = false) (hdf : s.drawFlag = false)
    (hop : fetch s.memory s.pc = 0x00EE) :
    step rnd s =
      .normal { s with pc := s.stack.getLast?.getD .undefined, stack := s.stack.dropLast } := by
  rw [step_running rnd s hw hh, hop, dispatch_00EE]
  exact congrArg Completion.normal (present_of_not_drawFlag _ hdf)

/-! ## The draw flag between steps -/

theorem present_drawFlag (s : C8JS) : (present s).drawFlag = false := by
  unfold present
  split
  · rfl
  · rename_i h
    simpa using h

theorem dispatch_throw (rnd op : Nat) (s s1 : C8JS) (e : JsError)
    (h : dispatch rnd op s = .throw e s1) : s1 = s ∧ e = .ReferenceError := by
  unfold dispatch at h
  dsimp only at h
  split at h
  all_goals first
    | (injection h with h1 h2; exact ⟨h2.symm, h1.symm⟩)
    | (split at h <;> first | cases h | (split at h <;> cases h))
    | cases h

/-- Between two calls of `step()` the field `drawFlag` is false. -/
theorem step_drawFlag (rnd : Nat) (s : C8JS) (h : s.drawFlag = false) :
    (step rnd s).state.drawFlag = false := by
  by_cases hw : s.waitingForKey = true
  · simp only [step, hw, if_true, Completion.state]
    exact h
  · by_cases hh : s.halted = true
    · simp only [step, hw, hh, if_true, if_false, Completion.state]
      exact h
    · rw [step_running rnd s (by simpa using hw) (by simpa using hh)]
      generalize hd : dispatch rnd (fetch s.memory s.pc) { s with pc := s.pc.add 2 } = c
      cases c with
      | normal s1 => exact present_drawFlag _
      | throw e s1 =>
        show s1.drawFlag = false
        rw [(dispatch_throw _ _ _ _ _ hd).1]
        exact h

/-! ## Programs -/

/-- C9.  On a machine that is not halted, after `loadROM` of the four bytes `6xaa 7xbb`
and two `step()` calls, register `x` holds `(a + b) mod 256`, the program counter is
0x204 and every other register is still 0. -/
theorem load_then_add (rnd rnd2 : Nat) (s : C8JS) (x a b : Nat) (hx : x < 16)
    (ha : a < 256) (hb : b < 256) (hh : s.halted = false) :
    ∃ s0 s1 s2, loadROM s [0x60 + x, a, 0x70 + x, b] = .normal s0 ∧
      step rnd s0 = .normal s1 ∧ step rnd2 s1 = .normal s2 ∧
      s2.v x = (a + b) % 256 ∧ s2.pc = .num 0x204 ∧ ∀ j, j ≠ x → s2.v j = 0 := by
  have hm0 : memSet fontMemory [0x60 + x, a, 0x70 + x, b] 0x200 0x200 = 0x60 + x := by
    rw [memSet_at fontMemory [0x60 + x, a, 0x70 + x, b] 0x200 0 (by simp)]
    show (0x60 + x) % 256 = _
    omega
  have hm1 : memSet fontMemory [0x60 + x, a, 0x70 + x, b] 0x200 (0x200 + 1) = a := by
    rw [memSet_at fontMemory [0x60 + x, a, 0x70 + x, b] 0x200 1 (by simp)]
    show a % 256 = _
    omega
  have hm2 : memSet fontMemory [0x60 + x, a, 0x70 + x, b] 0x200 0x202 = 0x70 + x := by
    rw [memSet_at fontMemory [0x60 + x, a, 0x70 + x, b] 0x200 2 (by simp)]
    show (0x70 + x) % 256 = _
    omega
  have hm3 : memSet fontMemory [0x60 + x, a, 0x70 + x, b] 0x200 (0x202 + 1) = b := by
    rw [memSet_at fontMemory [0x60 + x, a, 0x70 + x, b] 0x200 3 (by simp)]
    show b % 256 = _
    omega
  have hf0 : fetch (memSet fontMemory [0x60 + x, a, 0x70 + x, b] 0x200) (.num 0x200) =
      0x6000 + 0x100 * x + a := by
    rw [fetch_bytes _ 0x200 _ _ (by decide) hm0 hm1 ha]
    omega
  have hf1 : fetch (memSet fontMemory [0x60 + x, a, 0x70 + x, b] 0x200) (.num 0x202) =
      0x7000 + 0x100 * x + b := by
    rw [fetch_bytes _ 0x202 _ _ (by decide) hm2 hm3 hb]
    omega
  have hl : loadROM s [0x60 + x, a, 0x70 + x, b] =
      .normal { reset s with memory := memSet fontMemory [0x60 + x, a, 0x70 + x, b] 0x200 } := by
    unfold loadROM
    rw [if_neg (by simp [memSize])]
    rfl
  have h1 := step_6xnn rnd
    { reset s with memory := memSet fontMemory [0x60 + x, a, 0x70 + x, b] 0x200 }
    x a hx ha rfl hh rfl hf0
  have h2 := step_7xnn rnd2
    { reset s with memory := memSet fontMemory [0x60 + x, a, 0x70 + x, b] 0x200,
                   pc := .num 0x202, v := setV (fun _ => 0) x a }
    x b hx hb rfl hh rfl hf1
  refine ⟨_, _, _, hl, h1, h2, ?_, rfl, ?_⟩
  · show setV (setV (fun _ => 0) x a) x ((setV (fun _ => 0) x a x + b) &&& 0xFF) x = _
    rw [setV_eq _ _ _ hx, setV_eq _ _ _ hx, and_00FF, Nat.mod_mod, Nat.mod_eq_of_lt ha]
  · intro j hj
    show setV (setV (fun _ => 0) x a) x ((setV (fun _ => 0) x a x + b) &&& 0xFF) j = _
    rw [setV_ne _ _ _ _ hj, setV_ne _ _ _ _ hj]

/-- Witness for `load_then_add`: `6005 7003` gives V0 = 8 and pc = 0x204. -/
theorem load_then_add_witness :
    ∃ s0 s1 s2, loadROM (construct true true) [0x60 + 0, 5, 0x70 + 0, 3] = .normal s0 ∧
      step 0 s0 = .normal s1 ∧ step 0 s1 = .normal s2 ∧
      s2.v 0 = (5 + 3) % 256 ∧ s2.pc = .num 0x204 ∧ ∀ j, j ≠ 0 → s2.v j = 0 :=
  load_then_add 0 0 (construct true true) 0 5 3 (by decide) (by decide) (by decide)
    (by decide)

/-- C10.  CALL followed by RETURN is a round trip.  On a running machine (between two
`step()` calls `drawFlag` is never set) with program counter `p`, memory holding `2nnn`
at `p` and `00EE` at `nnn`, two `step()` calls leave the program counter at `p + 2`, the
call stack as it was, and registers, index register and memory unchanged. -/
theorem call_return (rnd rnd2 : Nat) (s : C8JS) (p nnn : Nat) (hn : nnn < 4096)
    (hw : s.waitingForKey = false) (hh : s.halted = false) (hdf : s.drawFlag = false)
    (hpc : s.pc = .num p)
    (hcall : fetch s.memory (.num p) = 0x2000 + nnn)
    (hret : fetch s.memory (.num nnn) = 0x00EE) :
    ∃ s1 s2, step rnd s = .normal s1 ∧ step rnd2 s1 = .normal s2 ∧
      s2.pc = .num (p + 2) ∧ s2.stack = s.stack ∧ s2.v = s.v ∧ s2.i = s.i ∧
      s2.memory = s.memory := by
  have h1 := step_2nnn rnd s nnn hn hw hh hdf (by rw [hpc]; exact hcall)
  have h2 := step_00EE rnd2 { s with stack := s.stack ++ [s.pc.add 2], pc := .num nnn }
    hw hh hdf hret
  refine ⟨_, _, h1, h2, ?_, ?_, rfl, rfl, rfl⟩
  · show (s.stack ++ [s.pc.add 2]).getLast?.getD .undefined = _
    rw [List.getLast?_append_of_ne_nil _ (List.cons_ne_nil _ _), hpc]
    rfl
  · show (s.stack ++ [s.pc.add 2]).dropLast = _
    exact List.dropLast_concat

/-- Witness for `call_return`: `2300` at 0x200 and `00EE` at 0x300, empty stack. -/
theorem call_return_witness :
    ∃ s1 s2, step 0 callExample = .normal s1 ∧ step 0 s1 = .normal s2 ∧
      s2.pc = .num (0x200 + 2) ∧ s2.stack = callExample.stack ∧ s2.v = callExample.v ∧
      s2.i = callExample.i ∧ s2.memory = callExample.memory :=
  call_return 0 0 callExample 0x200 0x300 (by decide) (by decide) (by decide) (by decide)
    rfl (by decide) (by decide)

/-! ## The guards of `step` -/

/-- C11.  While `waitingForKey` or `halted` is set, `step()` returns at once: the call
ends normally in the very state it started from, so memory, registers, index register,
program counter, stack, framebuffer, keys, timers, wait state and halted flag are all
unchanged. -/
theorem step_guarded (rnd : Nat) (s : C8JS)
    (h : s.waitingForKey = true ∨ s.halted = true) : step rnd s = .normal s := by
  unfold step
  rcases h with h | h
  · rw [if_pos h]
  · by_cases hw : s.waitingForKey = true
    · rw [if_pos hw]
    · rw [if_neg hw, if_pos h]

/-- Witness for `step_guarded`: a machine waiting for a key and a halted machine. -/
theorem step_guarded_witness :
    step 0 waitingExample = .normal waitingExample ∧
    step 0 haltedExample = .normal haltedExample :=
  ⟨step_guarded 0 waitingExample (Or.inl (by decide)),
   step_guarded 0 haltedExample (Or.inr (by decide))⟩

/-! ## The timer callback -/

theorem startBeep_timers (s : C8JS) :
    (startBeep s).delayTimer = s.delayTimer ∧ (startBeep s).soundTimer = s.soundTimer := by
  unfold startBeep
  split
  · split <;> exact ⟨rfl, rfl⟩
  · exact ⟨rfl, rfl⟩

theorem stopBeep_timers (s : C8JS) :
    (stopBeep s).delayTimer = s.delayTimer ∧ (stopBeep s).soundTimer = s.soundTimer := by
  unfold stopBeep
  split <;> exact ⟨rfl, rfl⟩

theorem startBeep_oscillator (s : C8JS) :
    (startBeep s).oscillator = (s.oscillator || s.audioCtx) := by
  unfold startBeep
  cases ho : s.oscillator <;> cases ha : s.audioCtx <;> simp [ho, ha]

theorem stopBeep_oscillator (s : C8JS) : (stopBeep s).oscillator = false := by
  unfold stopBeep
  cases ho : s.oscillator <;> simp [ho]

theorem timerTick_eq (s : C8JS) :
    timerTick s =
      (if 0 < s.soundTimer then
        startBeep { s with delayTimer := s.delayTimer - 1, soundTimer := s.soundTimer - 1 }
       else stopBeep { s with delayTimer := s.delayTimer - 1 }) := by
  have hd : (if s.delayTimer > 0 then { s with delayTimer := s.delayTimer - 1 } else s) =
      { s with delayTimer := s.delayTimer - 1 } := by
    by_cases h : s.delayTimer > 0
    · rw [if_pos h]
    · rw [if_neg h]
      have h0 : s.delayTimer = 0 := by omega
      cases s
      simp only at h0
      subst h0
      rfl
  unfold timerTick
  simp only [hd]

/-- C13, amended.  One call of the timer callback leaves the delay timer at
`max(d - 1, 0)` and the sound timer at `max(s - 1, 0)`; it calls `startBeep()` exactly
when the sound timer was non-zero before the decrement and `stopBeep()` when it was
already zero.  With an audio context the oscillator therefore exists afterwards exactly
when the sound timer was non-zero before the call. -/
theorem timerTick_effect (s : C8JS) :
    (timerTick s).delayTimer = s.delayTimer - 1 ∧
    (timerTick s).soundTimer = s.soundTimer - 1 ∧
    timerTick s =
      (if 0 < s.soundTimer then
        startBeep { s with delayTimer := s.delayTimer - 1, soundTimer := s.soundTimer - 1 }
       else stopBeep { s with delayTimer := s.delayTimer - 1 }) ∧
    (timerTick s).oscillator =
      (if 0 < s.soundTimer then (s.oscillator || s.audioCtx) else false) := by
  have ht := timerTick_eq s
  by_cases h : 0 < s.soundTimer
  · rw [if_pos h] at ht
    refine ⟨?_, ?_, ?_, ?_⟩
    · rw [ht, (startBeep_timers _).1]
    · rw [ht, (startBeep_timers _).2]
    · rw [if_pos h, ht]
    · rw [if_pos h, ht, startBeep_oscillator]
  · rw [if_neg h] at ht
    have h0 : s.soundTimer = 0 := by omega
    refine ⟨?_, ?_, ?_, ?_⟩
    · rw [ht, (stopBeep_timers _).1]
    · rw [ht, (stopBeep_timers _).2, h0]
    · rw [if_neg h, ht]
    · rw [if_neg h, ht, stopBeep_oscillator]

/-- C13 as stated fails when the sound timer is 1: the call leaves it at 0, yet it runs
`startBeep()`, and with an audio context the oscillator is created. -/
theorem timerTick_beeps_at_zero :
    soundExample.soundTimer = 1 ∧ soundExample.oscillator = false ∧
    soundExample.audioCtx = true ∧
    (timerTick soundExample).soundTimer = 0 ∧
    (timerTick soundExample).oscillator = true ∧
    ¬ ((timerTick soundExample).oscillator = true ↔
        (timerTick soundExample).soundTimer ≠ 0) := by
  decide

/-! ## `Bnnn` -/

theorem dispatch_Bnnn (rnd nnn : Nat) (s : C8JS) (hn : nnn < 4096) :
    dispatch rnd (0xB000 + nnn) s = .throw .ReferenceError s := by
  have h1 : (0xB000 + nnn) &&& 0xF000 = 0xB000 := by rw [and_F000]; omega
  simp only [dispatch]
  rw [h1]

/-- On a running machine `Bnnn` ends `step()` with a `ReferenceError`, raised after the
program counter was advanced and before anything else is written. -/
theorem step_Bnnn (rnd : Nat) (s : C8JS) (nnn : Nat) (hn : nnn < 4096)
    (hw : s.waitingForKey = false) (hh : s.halted = false)
    (hop : fetch s.memory s.pc = 0xB000 + nnn) :
    step rnd s = .throw .ReferenceError { s with pc := s.pc.add 2 } := by
  rw [step_running rnd s hw hh, hop, dispatch_Bnnn rnd nnn _ hn]

/-- C14 fails on the code.  `B300` with V0 = 2 on a running machine: the claim asks for
a step that completes with the program counter at 0x302, while `step()` raises a
`ReferenceError` and leaves the program counter at 0x202. -/
theorem jump_offset_throws :
    jumpExample.waitingForKey = false ∧ jumpExample.halted = false ∧
    fetch jumpExample.memory jumpExample.pc = 0xB000 + 0x300 ∧
    jumpExample.v 0 = 2 ∧
    (step 0 jumpExample).error = some .ReferenceError ∧
    (step 0 jumpExample).state.pc = .num 0x202 ∧
    ¬ ((step 0 jumpExample).state.pc = .num (0x300 + jumpExample.v 0)) := by
  decide

/-! ## `00EE` on an empty call stack -/

theorem fetch_undefined (m : Nat → Nat) : fetch m .undefined = 0 := by
  simp [fetch, memReadAt, JsVal.add]

theorem fetch_nan (m : Nat → Nat) : fetch m .nan = 0 := by
  simp [fetch, memReadAt, JsVal.add]

/-- A running machine executes the word `0000` by advancing the program counter. -/
theorem step_0000 (rnd : Nat) (s : C8JS)
    (hw : s.waitingForKey = false) (hh : s.halted = false) (hdf : s.drawFlag = false)
    (hop : fetch s.memory s.pc = 0) :
    step rnd s = .normal { s with pc := s.pc.add 2 } := by
  rw [step_running rnd s hw hh, hop, dispatch_0000]
  exact congrArg Completion.normal (present_of_not_drawFlag _ hdf)

/-- C16, amended.  On a running machine whose call stack is empty, `00EE` raises no
fault and does not halt: `pop()` returns `undefined`, which becomes the program counter,
the stack stays empty and nothing else changes.  The next `step()` reads the word 0 and
turns the program counter into `NaN`. -/
theorem return_on_empty_stack (rnd rnd2 : Nat) (s : C8JS)
    (hw : s.waitingForKey = false) (hh : s.halted = false) (hdf : s.drawFlag = false)
    (hst : s.stack = []) (hop : fetch s.memory s.pc = 0x00EE) :
    ∃ s1 s2, step rnd s = .normal s1 ∧ s1 = { s with pc := .undefined } ∧
      s1.halted = false ∧ s1.stack = [] ∧
      step rnd2 s1 = .normal s2 ∧ s2 = { s with pc := .nan } := by
  have h1 := step_00EE rnd s hw hh hdf hop
  have e1 : ({ s with pc := ({ s with pc := s.pc.add 2 } : C8JS).stack.getLast?.getD .undefined,
                      stack := ({ s with pc := s.pc.add 2 } : C8JS).stack.dropLast } : C8JS) =
      { s with pc := .undefined } := by
    cases s
    simp only at hst
    subst hst
    rfl
  have h2 : step rnd2 { s with pc := .undefined } = .normal { s with pc := .nan } :=
    step_0000 rnd2 { s with pc := .undefined } hw hh hdf (fetch_undefined s.memory)
  refine ⟨_, _, h1.trans (congrArg Completion.normal e1), rfl, hh, hst, h2, rfl⟩

/-- Witness for `return_on_empty_stack`: `00EE` on a fresh machine. -/
theorem return_on_empty_stack_witness :
    ∃ s1 s2, step 0 returnExample = .normal s1 ∧
      s1 = { returnExample with pc := .undefined } ∧
      s1.halted = false ∧ s1.stack = [] ∧
      step 0 s1 = .normal s2 ∧ s2 = { returnExample with pc := .nan } :=
  return_on_empty_stack 0 0 returnExample (by decide) (by decide) (by decide) (by decide)
    (by decide)

/-- C16 as stated fails: `00EE` on a running machine with an empty call stack ends
`step()` without an exception, the machine is not halted, and the program counter is
`undefined`. -/
theorem return_on_empty_stack_no_fault :
    returnExample.waitingForKey = false ∧ returnExample.halted = false ∧
    returnExample.stack = [] ∧
    fetch returnExample.memory returnExample.pc = 0x00EE ∧
    (step 0 returnExample).error = none ∧
    (step 0 returnExample).state.halted = false ∧
    (step 0 returnExample).state.pc = .undefined := by
  decide

/-! ## The key handlers -/

/-- C17 fails on the code.  The handlers take the position of `e.key` in
`"1234qwerasdfzxcv"` as the logical key, so '1' presses key 0x0 where the mapping table
in the source pairs it with 0x1; only 'q', 'w' and 'e' get the key of the table. -/
theorem key_index_table :
    keyIndex "1" = some 0x0 ∧ keyIndex "2" = some 0x1 ∧ keyIndex "3" = some 0x2 ∧
    keyIndex "4" = some 0x3 ∧ keyIndex "q" = some 0x4 ∧ keyIndex "w" = some 0x5 ∧
    keyIndex "e" = some 0x6 ∧ keyIndex "r" = some 0x7 ∧ keyIndex "a" = some 0x8 ∧
    keyIndex "s" = some 0x9 ∧ keyIndex "d" = some 0xA ∧ keyIndex "f" = some 0xB ∧
    keyIndex "z" = some 0xC ∧ keyIndex "x" = some 0xD ∧ keyIndex "c" = some 0xE ∧
    keyIndex "v" = some 0xF ∧
    (keydown "1" (construct true true)).keypad.getD 0x0 false = true ∧
    (keydown "1" (construct true true)).keypad.getD 0x1 false = false ∧
    (keydown "x" (construct true true)).keypad.getD 0x0 false = false ∧
    (keydown "x" (construct true true)).keypad.getD 0xD false = true := by
  decide

/-! ## The groups `8xyN`, `ExNN` and `FxNN` -/

theorem dispatch_Fxnn (rnd x nn : Nat) (s : C8JS) (hx : x < 16) (hnn : nn < 256) :
    dispatch rnd (0xF000 + 0x100 * x + nn) s = .normal (misc x nn s) := by
  have h1 : (0xF000 + 0x100 * x + nn) &&& 0xF000 = 0xF000 := by rw [and_F000]; omega
  have h2 : ((0xF000 + 0x100 * x + nn) &&& 0x0F00) >>> 8 = x := by rw [and_0F00_shr]; omega
  have h5 : (0xF000 + 0x100 * x + nn) &&& 0x00FF = nn := by rw [and_00FF]; omega
  simp only [dispatch]
  rw [h1, h2, h5]

/-- A running machine executes `FxNN` by the `case 0xF000` block. -/
theorem step_Fxnn (rnd : Nat) (s : C8JS) (x nn : Nat) (hx : x < 16) (hnn : nn < 256)
    (hw : s.waitingForKey = false) (hh : s.halted = false)
    (hop : fetch s.memory s.pc = 0xF000 + 0x100 * x + nn) :
    step rnd s = .normal (present (misc x nn { s with pc := s.pc.add 2 })) := by
  rw [step_running rnd s hw hh, hop, dispatch_Fxnn rnd x nn _ hx hnn]

theorem memWrite_eq (m : Nat → Nat) (a val : Nat) (ha : a < memSize) :
    memWrite m a val a = val % 256 := by
  simp [memWrite, ha]

theorem memWrite_ne (m : Nat → Nat) (a val b : Nat) (h : b ≠ a) :
    memWrite m a val b = m b := by
  simp [memWrite, h]

/-! ## `Fx33` -/

/-- C19.  On a running machine with `i <= 0xFFD` (and register `x` holding a byte, as
every element of the `Uint8Array` does), `Fx33` stores the decimal digits `h`, `t`, `u`
of `Vx` at `memory[i]`, `memory[i + 1]`, `memory[i + 2]`, with `h <= 2`, `t <= 9`,
`u <= 9` and `100 h + 10 t + u = Vx`; every other memory byte, every register and the
index register are unchanged. -/
theorem bcd_store (rnd : Nat) (s : C8JS) (x : Nat) (hx : x < 16)
    (hw : s.waitingForKey = false) (hh : s.halted = false)
    (hop : fetch s.memory s.pc = 0xF033 + 0x100 * x)
    (hI : s.i ≤ 0xFFD) (hv : s.v x < 256) :
    ∃ s1 h t u, step rnd s = .normal s1 ∧
      memRead s1.memory s.i = some h ∧ memRead s1.memory (s.i + 1) = some t ∧
      memRead s1.memory (s.i + 2) = some u ∧
      h ≤ 2 ∧ t ≤ 9 ∧ u ≤ 9 ∧ 100 * h + 10 * t + u = s.v x ∧
      (∀ a, a ≠ s.i → a ≠ s.i + 1 → a ≠ s.i + 2 → s1.memory a = s.memory a) ∧
      s1.v = s.v ∧ s1.i = s.i := by
  have h0 : s.i < memSize := by unfold memSize; omega
  have h1 : s.i + 1 < memSize := by unfold memSize; omega
  have h2 : s.i + 2 < memSize := by unfold memSize; omega
  refine ⟨_, s.v x / 100, s.v x % 100 / 10, s.v x % 10,
    step_Fxnn rnd s x 0x33 hx (by decide) hw hh (by omega), ?_, ?_, ?_,
    by omega, by omega, by omega, by omega, ?_, ?_, ?_⟩
  · rw [present_memory]
    show memRead (memWrite (memWrite (memWrite s.memory s.i (s.v x / 100)) (s.i + 1)
      (s.v x % 100 / 10)) (s.i + 2) (s.v x % 10)) s.i = _
    rw [memRead, if_pos h0, memWrite_ne _ _ _ _ (by omega), memWrite_ne _ _ _ _ (by omega),
      memWrite_eq _ _ _ h0, Nat.mod_eq_of_lt (by omega)]
  · rw [present_memory]
    show memRead (memWrite (memWrite (memWrite s.memory s.i (s.v x / 100)) (s.i + 1)
      (s.v x % 100 / 10)) (s.i + 2) (s.v x % 10)) (s.i + 1) = _
    rw [memRead, if_pos h1, memWrite_ne _ _ _ _ (by omega), memWrite_eq _ _ _ h1,
      Nat.mod_eq_of_lt (by omega)]
  · rw [present_memory]
    show memRead (memWrite (memWrite (memWrite s.memory s.i (s.v x / 100)) (s.i + 1)
      (s.v x % 100 / 10)) (s.i + 2) (s.v x % 10)) (s.i + 2) = _
    rw [memRead, if_pos h2, memWrite_eq _ _ _ h2, Nat.mod_eq_of_lt (by omega)]
  · intro a ha0 ha1 ha2
    rw [present_memory]
    show memWrite (memWrite (memWrite s.memory s.i (s.v x / 100)) (s.i + 1)
      (s.v x % 100 / 10)) (s.i + 2) (s.v x % 10) a = _
    rw [memWrite_ne _ _ _ _ ha2, memWrite_ne _ _ _ _ ha1, memWrite_ne _ _ _ _ ha0]
  · rw [present_v]
    rfl
  · rw [present_i]
    rfl

/-- Witness for `bcd_store`: `F033` with V0 = 254 and `i` = 0x300. -/
theorem bcd_store_witness :
    ∃ s1 h t u, step 0 bcdExample = .normal s1 ∧
      memRead s1.memory bcdExample.i = some h ∧
      memRead s1.memory (bcdExample.i + 1) = some t ∧
      memRead s1.memory (bcdExample.i + 2) = some u ∧
      h ≤ 2 ∧ t ≤ 9 ∧ u ≤ 9 ∧ 100 * h + 10 * t + u = bcdExample.v 0 ∧
      (∀ a, a ≠ bcdExample.i → a ≠ bcdExample.i + 1 → a ≠ bcdExample.i + 2 →
        s1.memory a = bcdExample.memory a) ∧
      s1.v = bcdExample.v ∧ s1.i = bcdExample.i :=
  bcd_store 0 bcdExample 0 (by decide) (by decide) (by decide) (by decide) (by decide)
    (by decide)

/-! ## The flag-producing instructions of `8xyN` -/

theorem and_0080_shr (op : Nat) : (op &&& 0x80) >>> 7 = op / 128 % 2 :=
  shr_and_mask op 7 1

theorem alu_frame (x y n : Nat) (s : C8JS) :
    (alu x y n s).i = s.i ∧ (alu x y n s).stack = s.stack ∧
    (alu x y n s).memory = s.memory ∧ (alu x y n s).display = s.display ∧
    (alu x y n s).pc = s.pc ∧
    ∀ j, j ≠ x → j ≠ 0xF → (alu x y n s).v j = s.v j := by
  unfold alu
  split <;> refine ⟨rfl, rfl, rfl, rfl, rfl, fun j hj hF => ?_⟩ <;>
    first
    | rfl
    | (dsimp only; rw [setV_ne _ _ _ _ hj, setV_ne _ _ _ _ hF])
    | (dsimp only; rw [setV_ne _ _ _ _ hj])

/-- C20.  On a running machine, with neither `x` nor `y` the flag register and register
`x` holding a byte, the five flag-producing instructions give, on the values `Vx`, `Vy`
before the step: `8xy4` `(Vx + Vy) mod 256` with VF the carry; `8xy5` `(Vx - Vy) mod 256`
with VF = 1 iff `Vx > Vy`; `8xy7` `(Vy - Vx) mod 256` with VF = 1 iff `Vy > Vx`; `8xy6`
`Vx / 2` with VF = `Vx mod 2`; `8xyE` `2 Vx mod 256` with VF = `Vx / 128`.  Every other
register, the index register, the stack, memory and the framebuffer are unchanged and
the program counter advances by 2. -/
theorem alu_flag_instructions (rnd : Nat) (s : C8JS) (x y n : Nat) (hx : x < 16)
    (hy : y < 16) (hxF : x ≠ 0xF) (hyF : y ≠ 0xF)
    (hn : n = 0x4 ∨ n = 0x5 ∨ n = 0x6 ∨ n = 0x7 ∨ n = 0xE) (hvx : s.v x < 256)
    (hw : s.waitingForKey = false) (hh : s.halted = false)
    (hop : fetch s.memory s.pc = 0x8000 + 0x100 * x + 0x10 * y + n) :
    ∃ s1, step rnd s = .normal s1 ∧
      (n = 0x4 → s1.v x = (s.v x + s.v y) % 256 ∧
        s1.v 0xF = (if s.v x + s.v y > 255 then 1 else 0)) ∧
      (n = 0x5 → (s1.v x : Int) = ((s.v x : Int) - (s.v y : Int)) % 256 ∧
        s1.v 0xF = (if s.v x > s.v y then 1 else 0)) ∧
      (n = 0x7 → (s1.v x : Int) = ((s.v y : Int) - (s.v x : Int)) % 256 ∧
        s1.v 0xF = (if s.v y > s.v x then 1 else 0)) ∧
      (n = 0x6 → s1.v x = s.v x / 2 ∧ s1.v 0xF = s.v x % 2) ∧
      (n = 0xE → s1.v x = (2 * s.v x) % 256 ∧ s1.v 0xF = s.v x / 128) ∧
      (∀ j, j ≠ x → j ≠ 0xF → s1.v j = s.v j) ∧
      s1.i = s.i ∧ s1.stack = s.stack ∧ s1.memory = s.memory ∧
      s1.display = s.display ∧ s1.pc = s.pc.add 2 := by
  have hFx : (15 : Nat) ≠ x := fun h => hxF h.symm
  have hn16 : n < 16 := by omega
  obtain ⟨f1, f2, f3, f4, f5, f6⟩ := alu_frame x y n { s with pc := s.pc.add 2 }
  refine ⟨_, step_8xyn rnd s x y n hx hy hn16 hw hh hop, ?_, ?_, ?_, ?_, ?_, ?_, ?_, ?_, ?_,
    ?_, ?_⟩
  · rintro rfl
    simp only [present_v, alu]
    rw [setV_eq _ _ _ hx, and_00FF, Nat.mod_mod, setV_ne _ _ _ _ hFx,
      setV_eq _ _ _ (by decide)]
    exact ⟨rfl, by split <;> rfl⟩
  · rintro rfl
    simp only [present_v, alu]
    rw [setV_eq _ _ _ hx, setV_ne _ _ _ _ hxF, setV_ne _ _ _ _ hyF,
      Nat.mod_eq_of_lt (and0xFF_lt _), and0xFF_eq, setV_ne _ _ _ _ hFx,
      setV_eq _ _ _ (by decide)]
    exact ⟨rfl, by split <;> rfl⟩
  · rintro rfl
    simp only [present_v, alu]
    rw [setV_eq _ _ _ hx, setV_ne _ _ _ _ hxF, setV_ne _ _ _ _ hyF,
      Nat.mod_eq_of_lt (and0xFF_lt _), and0xFF_eq, setV_ne _ _ _ _ hFx,
      setV_eq _ _ _ (by decide)]
    exact ⟨rfl, by split <;> rfl⟩
  · rintro rfl
    simp only [present_v, alu]
    rw [setV_eq _ _ _ hx, setV_ne _ _ _ _ hxF, setV_ne _ _ _ _ hFx,
      setV_eq _ _ _ (by decide), Nat.shiftRight_eq_div_pow, Nat.and_one_is_mod]
    constructor
    · show s.v x / 2 % 256 = s.v x / 2
      omega
    · omega
  · rintro rfl
    simp only [present_v, alu]
    rw [setV_eq _ _ _ hx, setV_ne _ _ _ _ hxF, setV_ne _ _ _ _ hFx,
      setV_eq _ _ _ (by decide), and_00FF, Nat.mod_mod, Nat.shiftLeft_eq,
      and_0080_shr]
    constructor
    · show s.v x * 2 % 256 = 2 * s.v x % 256
      rw [Nat.mul_comm]
    · show s.v x / 128 % 2 % 256 = s.v x / 128
      omega
  · intro j hj hF
    rw [present_v]
    exact f6 j hj hF
  · rw [present_i, f1]
  · rw [present_stack, f2]
  · rw [present_memory, f3]
  · rw [present_display, f4]
  · rw [present_pc, f5]

/-! ## Instruction words outside the opcode table -/

theorem dispatch_0nnn (rnd op : Nat) (s : C8JS) (h : op < 0x1000) (hE0 : op ≠ 0x00E0)
    (hEE : op ≠ 0x00EE) : dispatch rnd op s = .normal s := by
  have h1 : op &&& 0xF000 = 0x0000 := by rw [and_F000]; omega
  simp only [dispatch]
  rw [h1]
  show (if op = 0x00E0 then _ else if op = 0x00EE then _ else _) = _
  rw [if_neg hE0, if_neg hEE]

theorem dispatch_8xyn (rnd x y n : Nat) (s : C8JS) (hx : x < 16) (hy : y < 16)
    (hn : n < 16) :
    dispatch rnd (0x8000 + 0x100 * x + 0x10 * y + n) s = .normal (alu x y n s) := by
  obtain ⟨h1, h2, h3, -, -, h6⟩ := decode_nibbles 8 x y n (by omega) hx hy hn
  simp only [dispatch]
  rw [h1, h2, h3, h6]

theorem dispatch_5xyn (rnd x y n : Nat) (s : C8JS) (hx : x < 16) (hy : y < 16)
    (hn : n < 16) :
    dispatch rnd (0x5000 + 0x100 * x + 0x10 * y + n) s =
      .normal (if s.v x = s.v y then { s with pc := s.pc.add 2 } else s) := by
  obtain ⟨h1, h2, h3, -, -, -⟩ := decode_nibbles 5 x y n (by omega) hx hy hn
  simp only [dispatch]
  rw [h1, h2, h3]

theorem dispatch_9xyn (rnd x y n : Nat) (s : C8JS) (hx : x < 16) (hy : y < 16)
    (hn : n < 16) :
    dispatch rnd (0x9000 + 0x100 * x + 0x10 * y + n) s =
      .normal (if s.v x ≠ s.v y then { s with pc := s.pc.add 2 } else s) := by
  obtain ⟨h1, h2, h3, -, -, -⟩ := decode_nibbles 9 x y n (by omega) hx hy hn
  simp only [dispatch]
  rw [h1, h2, h3]

theorem dispatch_Exnn (rnd x nn : Nat) (s : C8JS) (hx : x < 16) (hnn : nn < 256)
    (h9E : nn ≠ 0x9E) (hA1 : nn ≠ 0xA1) :
    dispatch rnd (0xE000 + 0x100 * x + nn) s = .normal s := by
  have h1 : (0xE000 + 0x100 * x + nn) &&& 0xF000 = 0xE000 := by rw [and_F000]; omega
  have h5 : (0xE000 + 0x100 * x + nn) &&& 0x00FF = nn := by rw [and_00FF]; omega
  simp only [dispatch]
  rw [h1, h5]
  simp only [h9E, hA1, false_and, if_false]

theorem alu_unlisted (x y n : Nat) (s : C8JS)
    (hn : n = 0x8 ∨ n = 0x9 ∨ n = 0xA ∨ n = 0xB ∨ n = 0xC ∨ n = 0xD ∨ n = 0xF) :
    alu x y n s = s := by
  rcases hn with h | h | h | h | h | h | h <;> subst h <;> rfl

theorem misc_unlisted (x nn : Nat) (s : C8JS)
    (h07 : nn ≠ 0x07) (h0A : nn ≠ 0x0A) (h15 : nn ≠ 0x15) (h18 : nn ≠ 0x18)
    (h1E : nn ≠ 0x1E) (h29 : nn ≠ 0x29) (h33 : nn ≠ 0x33) (h55 : nn ≠ 0x55)
    (h65 : nn ≠ 0x65) : misc x nn s = s := by
  unfold misc
  split <;> first | rfl | omega

/-- C15, amended.  On a running machine (between two `step()` calls `drawFlag` is
false), a 16-bit instruction word `op` of one of the following kinds is a no-op: one
step advances the program counter by 2 and changes nothing else.  The kinds are `0nnn`
other than `00E0` and `00EE`; `8xyN` with N in {8, 9, A, B, C, D, F}; `ExNN` with NN not
in {9E, A1}; `FxNN` with NN not in {07, 0A, 15, 18, 1E, 29, 33, 55, 65}; and, the low
nibble of the groups 5 and 9 not being decoded, `5xyN` when `Vx != Vy` and `9xyN` when
`Vx = Vy`. -/
theorem unknown_word_noop (rnd : Nat) (s : C8JS) (op : Nat)
    (hw : s.waitingForKey = false) (hh : s.halted = false) (hdf : s.drawFlag = false)
    (hop : fetch s.memory s.pc = op) (h16 : op < 0x10000)
    (hunk :
      (op / 0x1000 = 0x0 ∧ op ≠ 0x00E0 ∧ op ≠ 0x00EE) ∨
      (op / 0x1000 = 0x8 ∧
        (op % 0x10 = 0x8 ∨ op % 0x10 = 0x9 ∨ op % 0x10 = 0xA ∨ op % 0x10 = 0xB ∨
          op % 0x10 = 0xC ∨ op % 0x10 = 0xD ∨ op % 0x10 = 0xF)) ∨
      (op / 0x1000 = 0xE ∧ op % 0x100 ≠ 0x9E ∧ op % 0x100 ≠ 0xA1) ∨
      (op / 0x1000 = 0xF ∧ op % 0x100 ≠ 0x07 ∧ op % 0x100 ≠ 0x0A ∧ op % 0x100 ≠ 0x15 ∧
        op % 0x100 ≠ 0x18 ∧ op % 0x100 ≠ 0x1E ∧ op % 0x100 ≠ 0x29 ∧ op % 0x100 ≠ 0x33 ∧
        op % 0x100 ≠ 0x55 ∧ op % 0x100 ≠ 0x65) ∨
      (op / 0x1000 = 0x5 ∧ s.v (op / 0x100 % 0x10) ≠ s.v (op / 0x10 % 0x10)) ∨
      (op / 0x1000 = 0x9 ∧ s.v (op / 0x100 % 0x10) = s.v (op / 0x10 % 0x10))) :
    step rnd s = .normal { s with pc := s.pc.add 2 } := by
  have hx : op / 0x100 % 0x10 < 16 := by omega
  have hy : op / 0x10 % 0x10 < 16 := by omega
  have hn : op % 0x10 < 16 := by omega
  have hnn : op % 0x100 < 256 := by omega
  have key : dispatch rnd op { s with pc := s.pc.add 2 } =
      .normal { s with pc := s.pc.add 2 } := by
    rcases hunk with ⟨hg, h1, h2⟩ | ⟨hg, h1⟩ | ⟨hg, h1, h2⟩ |
      ⟨hg, h1, h2, h3, h4, h5, h6, h7, h8, h9⟩ | ⟨hg, h1⟩ | ⟨hg, h1⟩
    · exact dispatch_0nnn rnd op _ (by omega) h1 h2
    · have e : op = 0x8000 + 0x100 * (op / 0x100 % 0x10) + 0x10 * (op / 0x10 % 0x10) +
          op % 0x10 := by omega
      rw [e, dispatch_8xyn rnd _ _ _ _ hx hy hn, alu_unlisted _ _ _ _ h1]
    · have e : op = 0xE000 + 0x100 * (op / 0x100 % 0x10) + op % 0x100 := by omega
      rw [e, dispatch_Exnn rnd _ _ _ hx hnn h1 h2]
    · have e : op = 0xF000 + 0x100 * (op / 0x100 % 0x10) + op % 0x100 := by omega
      rw [e, dispatch_Fxnn rnd _ _ _ hx hnn, misc_unlisted _ _ _ h1 h2 h3 h4 h5 h6 h7 h8 h9]
    · have e : op = 0x5000 + 0x100 * (op / 0x100 % 0x10) + 0x10 * (op / 0x10 % 0x10) +
          op % 0x10 := by omega
      rw [e, dispatch_5xyn rnd _ _ _ _ hx hy hn]
      exact congrArg Completion.normal (if_neg h1)
    · have e : op = 0x9000 + 0x100 * (op / 0x100 % 0x10) + 0x10 * (op / 0x10 % 0x10) +
          op % 0x10 := by omega
      rw [e, dispatch_9xyn rnd _ _ _ _ hx hy hn]
      exact congrArg Completion.normal (if_neg (not_not.mpr h1))
  rw [step_running rnd s hw hh, hop, key]
  exact congrArg Completion.normal (present_of_not_drawFlag _ hdf)

/-- Witness for `unknown_word_noop`: the word `8018`. -/
theorem unknown_word_noop_witness :
    step 0 unknownExample = .normal { unknownExample with pc := unknownExample.pc.add 2 } :=
  unknown_word_noop 0 unknownExample 0x8018 (by decide) (by decide) (by decide) (by decide)
    (by decide) (Or.inr (Or.inl (by decide)))

/-- C15 as stated fails for `5xyN` with N != 0: the word `5011` with V0 = V1 is
executed like `5010` and advances the program counter by 4. -/
theorem unknown_5xyN_skips :
    skipExample.waitingForKey = false ∧ skipExample.halted = false ∧
    fetch skipExample.memory skipExample.pc = 0x5011 ∧
    skipExample.pc = .num 0x200 ∧
    (step 0 skipExample).error = none ∧
    (step 0 skipExample).state.pc = .num 0x204 ∧
    ¬ ((step 0 skipExample).state.pc = skipExample.pc.add 2) := by
  decide

/-- Witness for `alu_flag_instructions`: `8014`, `8015`, `8016`, `8017` and `801E`. -/
theorem alu_flag_instructions_witness :
    (∃ s1, step 0 addExample = .normal s1 ∧
      ((0x4 : Nat) = 0x4 → s1.v 0 = (addExample.v 0 + addExample.v 1) % 256 ∧
        s1.v 0xF = (if addExample.v 0 + addExample.v 1 > 255 then 1 else 0)) ∧
      ((0x4 : Nat) = 0x5 → (s1.v 0 : Int) = ((addExample.v 0 : Int) - (addExample.v 1 : Int)) % 256 ∧
        s1.v 0xF = (if addExample.v 0 > addExample.v 1 then 1 else 0)) ∧
      ((0x4 : Nat) = 0x7 → (s1.v 0 : Int) = ((addExample.v 1 : Int) - (addExample.v 0 : Int)) % 256 ∧
        s1.v 0xF = (if addExample.v 1 > addExample.v 0 then 1 else 0)) ∧
      ((0x4 : Nat) = 0x6 → s1.v 0 = addExample.v 0 / 2 ∧ s1.v 0xF = addExample.v 0 % 2) ∧
      ((0x4 : Nat) = 0xE → s1.v 0 = (2 * addExample.v 0) % 256 ∧ s1.v 0xF = addExample.v 0 / 128) ∧
      (∀ j, j ≠ 0 → j ≠ 0xF → s1.v j = addExample.v j) ∧
      s1.i = addExample.i ∧ s1.stack = addExample.stack ∧ s1.memory = addExample.memory ∧
      s1.display = addExample.display ∧ s1.pc = addExample.pc.add 2) ∧
    (∃ s1, step 0 subExample = .normal s1 ∧
      ((0x5 : Nat) = 0x4 → s1.v 0 = (subExample.v 0 + subExample.v 1) % 256 ∧
        s1.v 0xF = (if subExample.v 0 + subExample.v 1 > 255 then 1 else 0)) ∧
      ((0x5 : Nat) = 0x5 → (s1.v 0 : Int) = ((subExample.v 0 : Int) - (subExample.v 1 : Int)) % 256 ∧
        s1.v 0xF = (if subExample.v 0 > subExample.v 1 then 1 else 0)) ∧
      ((0x5 : Nat) = 0x7 → (s1.v 0 : Int) = ((subExample.v 1 : Int) - (subExample.v 0 : Int)) % 256 ∧
        s1.v 0xF = (if subExample.v 1 > subExample.v 0 then 1 else 0)) ∧
      ((0x5 : Nat) = 0x6 → s1.v 0 = subExample.v 0 / 2 ∧ s1.v 0xF = subExample.v 0 % 2) ∧
      ((0x5 : Nat) = 0xE → s1.v 0 = (2 * subExample.v 0) % 256 ∧ s1.v 0xF = subExample.v 0 / 128) ∧
      (∀ j, j ≠ 0 → j ≠ 0xF → s1.v j = subExample.v j) ∧
      s1.i = subExample.i ∧ s1.stack = subExample.stack ∧ s1.memory = subExample.memory ∧
      s1.display = subExample.display ∧ s1.pc = subExample.pc.add 2) ∧
    (∃ s1, step 0 shrExample = .normal s1 ∧
      ((0x6 : Nat) = 0x4 → s1.v 0 = (shrExample.v 0 + shrExample.v 1) % 256 ∧
        s1.v 0xF = (if shrExample.v 0 + shrExample.v 1 > 255 then 1 else 0)) ∧
      ((0x6 : Nat) = 0x5 → (s1.v 0 : Int) = ((shrExample.v 0 : Int) - (shrExample.v 1 : Int)) % 256 ∧
        s1.v 0xF = (if shrExample.v 0 > shrExample.v 1 then 1 else 0)) ∧
      ((0x6 : Nat) = 0x7 → (s1.v 0 : Int) = ((shrExample.v 1 : Int) - (shrExample.v 0 : Int)) % 256 ∧
        s1.v 0xF = (if shrExample.v 1 > shrExample.v 0 then 1 else 0)) ∧
      ((0x6 : Nat) = 0x6 → s1.v 0 = shrExample.v 0 / 2 ∧ s1.v 0xF = shrExample.v 0 % 2) ∧
      ((0x6 : Nat) = 0xE → s1.v 0 = (2 * shrExample.v 0) % 256 ∧ s1.v 0xF = shrExample.v 0 / 128) ∧
      (∀ j, j ≠ 0 → j ≠ 0xF → s1.v j = shrExample.v j) ∧
      s1.i = shrExample.i ∧ s1.stack = shrExample.stack ∧ s1.memory = shrExample.memory ∧
      s1.display = shrExample.display ∧ s1.pc = shrExample.pc.add 2) ∧
    (∃ s1, step 0 subnExample = .normal s1 ∧
      ((0x7 : Nat) = 0x4 → s1.v 0 = (subnExample.v 0 + subnExample.v 1) % 256 ∧
        s1.v 0xF = (if subnExample.v 0 + subnExample.v 1 > 255 then 1 else 0)) ∧
      ((0x7 : Nat) = 0x5 → (s1.v 0 : Int) = ((subnExample.v 0 : Int) - (subnExample.v 1 : Int)) % 256 ∧
        s1.v 0xF = (if subnExample.v 0 > subnExample.v 1 then 1 else 0)) ∧
      ((0x7 : Nat) = 0x7 → (s1.v 0 : Int) = ((subnExample.v 1 : Int) - (subnExample.v 0 : Int)) % 256 ∧
        s1.v 0xF = (if subnExample.v 1 > subnExample.v 0 then 1 else 0)) ∧
      ((0x7 : Nat) = 0x6 → s1.v 0 = subnExample.v 0 / 2 ∧ s1.v 0xF = subnExample.v 0 % 2) ∧
      ((0x7 : Nat) = 0xE → s1.v 0 = (2 * subnExample.v 0) % 256 ∧ s1.v 0xF = subnExample.v 0 / 128) ∧
      (∀ j, j ≠ 0 → j ≠ 0xF → s1.v j = subnExample.v j) ∧
      s1.i = subnExample.i ∧ s1.stack = subnExample.stack ∧ s1.memory = subnExample.memory ∧
      s1.display = subnExample.display ∧ s1.pc = subnExample.pc.add 2) ∧
    (∃ s1, step 0 shlExample = .normal s1 ∧
      ((0xE : Nat) = 0x4 → s1.v 0 = (shlExample.v 0 + shlExample.v 1) % 256 ∧
        s1.v 0xF = (if shlExample.v 0 + shlExample.v 1 > 255 then 1 else 0)) ∧
      ((0xE : Nat) = 0x5 → (s1.v 0 : Int) = ((shlExample.v 0 : Int) - (shlExample.v 1 : Int)) % 256 ∧
        s1.v 0xF = (if shlExample.v 0 > shlExample.v 1 then 1 else 0)) ∧
      ((0xE : Nat) = 0x7 → (s1.v 0 : Int) = ((shlExample.v 1 : Int) - (shlExample.v 0 : Int)) % 256 ∧
        s1.v 0xF = (if shlExample.v 1 > shlExample.v 0 then 1 else 0)) ∧
      ((0xE : Nat) = 0x6 → s1.v 0 = shlExample.v 0 / 2 ∧ s1.v 0xF = shlExample.v 0 % 2) ∧
      ((0xE : Nat) = 0xE → s1.v 0 = (2 * shlExample.v 0) % 256 ∧ s1.v 0xF = shlExample.v 0 / 128) ∧
      (∀ j, j ≠ 0 → j ≠ 0xF → s1.v j = shlExample.v j) ∧
      s1.i = shlExample.i ∧ s1.stack = shlExample.stack ∧ s1.memory = shlExample.memory ∧
      s1.display = shlExample.display ∧ s1.pc = shlExample.pc.add 2) :=
  ⟨alu_flag_instructions 0 addExample 0 1 0x4 (by decide) (by decide) (by decide) (by decide)
      (by decide) (by decide) (by decide) (by decide) (by decide),
    alu_flag_instructions 0 subExample 0 1 0x5 (by decide) (by decide) (by decide) (by decide)
      (by decide) (by decide) (by decide) (by decide) (by decide),
    alu_flag_instructions 0 shrExample 0 1 0x6 (by decide) (by decide) (by decide) (by decide)
      (by decide) (by decide) (by decide) (by decide) (by decide),
    alu_flag_instructions 0 subnExample 0 1 0x7 (by decide) (by decide) (by decide) (by decide)
      (by decide) (by decide) (by decide) (by decide) (by decide),
    alu_flag_instructions 0 shlExample 0 1 0xE (by decide) (by decide) (by decide) (by decide)
      (by decide) (by decide) (by decide) (by decide) (by decide)⟩

/-! ## The shape of the framebuffer -/

theorem flipCell_wellFormed (d : List Nat) (idx : Nat) (h : wellFormed d)
    (hi : idx < cols * rows) : wellFormed (flipCell d idx) := by
  obtain ⟨hl, hb⟩ := h
  have hlt : idx < d.length := by rw [hl]; exact hi
  refine ⟨by rw [flipCell_length d idx hlt, hl], ?_⟩
  intro c hc
  unfold flipCell at hc
  rw [if_pos hlt] at hc
  rcases List.mem_or_eq_of_mem_set hc with h1 | h1
  · exact hb c h1
  · rw [h1]
    rcases getD_binary d hb idx with e | e <;> rw [e]
    · right; rfl
    · left; rfl

theorem cell_index_lt (vx vy row col : Nat) :
    (vy + row) % rows * cols + (vx + col) % cols < cols * rows := by
  simp only [rows, cols]
  omega

theorem drawPixel_display (x y row sprite : Nat) (s : C8JS) (col : Nat) :
    (drawPixel x y row sprite s col).display =
      if (sprite >>> (7 - col)) &&& 1 ≠ 0 then
        flipCell s.display ((s.v y + row) % rows * cols + (s.v x + col) % cols)
      else s.display := by
  unfold drawPixel
  dsimp only
  split
  · split <;> rfl
  · rfl

theorem drawPixel_wellFormed (x y row sprite : Nat) (s : C8JS) (col : Nat)
    (h : wellFormed s.display) : wellFormed (drawPixel x y row sprite s col).display := by
  rw [drawPixel_display]
  split
  · exact flipCell_wellFormed _ _ h (cell_index_lt _ _ _ _)
  · exact h

theorem drawPixels_wellFormed (x y row sprite : Nat) (cs : List Nat) : ∀ s : C8JS,
    wellFormed s.display → wellFormed (cs.foldl (drawPixel x y row sprite) s).display := by
  induction cs with
  | nil => intro s h; exact h
  | cons c cs ih =>
    intro s h
    rw [List.foldl_cons]
    exact ih _ (drawPixel_wellFormed x y row sprite s c h)

theorem drawRows_wellFormed (x y : Nat) (rs : List Nat) : ∀ s : C8JS,
    wellFormed s.display → wellFormed (rs.foldl (drawRow x y) s).display := by
  induction rs with
  | nil => intro s h; exact h
  | cons r rs ih =>
    intro s h
    rw [List.foldl_cons]
    exact ih _ (drawPixels_wellFormed x y r _ (List.range 8) s h)

theorem draw_wellFormed (x y n : Nat) (s : C8JS) (h : wellFormed s.display) :
    wellFormed (draw x y n s).display := by
  unfold draw
  exact drawRows_wellFormed x y (List.range n) _ h

theorem storeRegs_display (x : Nat) (s : C8JS) : (storeRegs x s).display = s.display := by
  unfold storeRegs
  generalize List.range (x + 1) = js
  induction js generalizing s with
  | nil => rfl
  | cons j js ih => rw [List.foldl_cons, ih]

theorem loadRegs_display (x : Nat) (s : C8JS) : (loadRegs x s).display = s.display := by
  unfold loadRegs
  generalize List.range (x + 1) = js
  induction js generalizing s with
  | nil => rfl
  | cons j js ih => rw [List.foldl_cons, ih]

theorem misc_display (x nn : Nat) (s : C8JS) : (misc x nn s).display = s.display := by
  unfold misc
  split <;> first | rfl | exact storeRegs_display x s | exact loadRegs_display x s

theorem map_zero_eq_replicate (d : List Nat) :
    d.map (fun _ => 0) = List.replicate d.length 0 := by
  induction d with
  | nil => rfl
  | cons a d ih => rw [List.map_cons, ih]; rfl

theorem replicate_wellFormed : wellFormed (List.replicate (cols * rows) 0) :=
  ⟨List.length_replicate _ _, fun _ hc => Or.inl (List.eq_of_mem_replicate hc)⟩

/-- Whatever the instruction word, the `switch` leaves a framebuffer of 64x32 binary
cells in that shape. -/
theorem dispatch_wellFormed (rnd op : Nat) (s : C8JS) (h : wellFormed s.display) :
    wellFormed (dispatch rnd op s).state.display := by
  unfold dispatch
  dsimp only
  split
  · split
    · show wellFormed (s.display.map (fun _ => 0))
      rw [map_zero_eq_replicate, h.1]
      exact replicate_wellFormed
    · split <;> exact h
  · exact h
  · exact h
  · show wellFormed (if _ then _ else _ : C8JS).display
    split <;> exact h
  · show wellFormed (if _ then _ else _ : C8JS).display
    split <;> exact h
  · show wellFormed (if _ then _ else _ : C8JS).display
    split <;> exact h
  · exact h
  · exact h
  · show wellFormed (alu _ _ _ s).display
    rw [(alu_frame _ _ _ s).2.2.2.1]
    exact h
  · show wellFormed (if _ then _ else _ : C8JS).display
    split <;> exact h
  · exact h
  · exact h
  · exact h
  · exact draw_wellFormed _ _ _ s h
  · show wellFormed (if _ then _ else _ : C8JS).display
    split <;> split <;> exact h
  · show wellFormed (misc _ _ s).display
    rw [misc_display]
    exact h
  · exact h

theorem step_wellFormed (rnd : Nat) (s : C8JS) (h : wellFormed s.display) :
    wellFormed (step rnd s).state.display := by
  by_cases hw : s.waitingForKey = true
  · simp only [step, hw, if_true, Completion.state]
    exact h
  · by_cases hh : s.halted = true
    · simp only [step, hw, hh, if_true, if_false, Completion.state]
      exact h
    · rw [step_running rnd s (by simpa using hw) (by simpa using hh)]
      have hd := dispatch_wellFormed rnd (fetch s.memory s.pc) { s with pc := s.pc.add 2 } h
      generalize dispatch rnd (fetch s.memory s.pc) { s with pc := s.pc.add 2 } = c at hd
      cases c with
      | normal s1 =>
        show wellFormed (present s1).display
        rw [present_display]
        exact hd
      | throw e s1 => exact hd

theorem dispatch_00E0 (rnd : Nat) (s : C8JS) :
    dispatch rnd 0x00E0 s = .normal { s with display := s.display.map (fun _ => 0) } := by
  rfl

/-- C18.  A framebuffer of 64 * 32 = 2048 cells, each 0 or 1, keeps that shape through
any `step()`, and `clearScreen()` and `reset()` produce 2048 unlit cells.  The cell a
pass of the inner loop of `Dxyn` flips is `((Vy + row) mod 32) * 64 + ((Vx + col) mod 64)`,
which is below 2048.  On a running machine whose framebuffer has 2048 cells, `00E0`
leaves 2048 unlit cells. -/
theorem framebuffer_shape (rnd : Nat) (s t : C8JS)
    (hs : s.display.length = 64 * 32 ∧ ∀ c ∈ s.display, c = 0 ∨ c = 1)
    (htl : t.display.length = 64 * 32)
    (htw : t.waitingForKey = false) (hth : t.halted = false)
    (hop : fetch t.memory t.pc = 0x00E0) :
    ((step rnd s).state.display.length = 64 * 32 ∧
      ∀ c ∈ (step rnd s).state.display, c = 0 ∨ c = 1) ∧
    (clearScreen s).display = List.replicate (64 * 32) 0 ∧
    (reset s).display = List.replicate (64 * 32) 0 ∧
    (∀ x y row sprite col (u : C8JS),
      (drawPixel x y row sprite u col).display =
        if (sprite >>> (7 - col)) &&& 1 ≠ 0 then
          flipCell u.display ((u.v y + row) % 32 * 64 + (u.v x + col) % 64)
        else u.display) ∧
    (∀ vx vy row col : Nat, (vy + row) % 32 * 64 + (vx + col) % 64 < 64 * 32) ∧
    (step rnd t).state.display = List.replicate (64 * 32) 0 := by
  refine ⟨step_wellFormed rnd s hs, rfl, rfl, ?_, ?_, ?_⟩
  · intro x y row sprite col u
    exact drawPixel_display x y row sprite u col
  · intro vx vy row col
    exact cell_index_lt vx vy row col
  · rw [step_running rnd t htw hth, hop, dispatch_00E0]
    show (present _).display = _
    rw [present_display]
    show t.display.map (fun _ => 0) = _
    rw [map_zero_eq_replicate, htl]

/-- Witness for `framebuffer_shape`: a sprite draw on an unlit screen and `00E0` on a
screen with one lit cell. -/
theorem framebuffer_shape_witness :
    ((step 0 drawExample).state.display.length = 64 * 32 ∧
      ∀ c ∈ (step 0 drawExample).state.display, c = 0 ∨ c = 1) ∧
    (clearScreen drawExample).display = List.replicate (64 * 32) 0 ∧
    (reset drawExample).display = List.replicate (64 * 32) 0 ∧
    (∀ x y row sprite col (u : C8JS),
      (drawPixel x y row sprite u col).display =
        if (sprite >>> (7 - col)) &&& 1 ≠ 0 then
          flipCell u.display ((u.v y + row) % 32 * 64 + (u.v x + col) % 64)
        else u.display) ∧
    (∀ vx vy row col : Nat, (vy + row) % 32 * 64 + (vx + col) % 64 < 64 * 32) ∧
    (step 0 clearExample).state.display = List.replicate (64 * 32) 0 :=
  framebuffer_shape 0 drawExample clearExample
    ⟨List.length_replicate _ _, fun _ hc => Or.inl (List.eq_of_mem_replicate hc)⟩
    (by rw [clearExample, List.length_set]; exact List.length_replicate _ _)
    (by decide) (by decide) (by decide)

/-! ## Waiting for a key -/

theorem keypadSet_getD_self (kp : List Bool) (k : Nat) (b : Bool) :
    (keypadSet kp k b).getD k false = b := by
  unfold keypadSet
  by_cases h : k < kp.length
  · rw [if_pos h, List.getD_eq_getElem?_getD, List.getElem?_set_eq_of_lt b h]
    rfl
  · rw [if_neg h, List.getD_eq_getElem?_getD]
    have hl : (kp ++ List.replicate (k - kp.length) false).length = k := by
      rw [List.length_append, List.length_replicate]
      omega
    rw [List.getElem?_append_right (by rw [hl]), hl, Nat.sub_self]
    rfl

theorem keypadSet_getD_ne (kp : List Bool) (k j : Nat) (b : Bool) (hj : j ≠ k) :
    (keypadSet kp k b).getD j false = kp.getD j false := by
  unfold keypadSet
  by_cases h : k < kp.length
  · rw [if_pos h, List.getD_eq_getElem?_getD, List.getD_eq_getElem?_getD,
      List.getElem?_set_ne (Ne.symm hj)]
  · rw [if_neg h, List.getD_eq_getElem?_getD, List.getD_eq_getElem?_getD]
    have hl : (kp ++ List.replicate (k - kp.length) false).length = k := by
      rw [List.length_append, List.length_replicate]
      omega
    by_cases hjk : j < k
    · rw [List.getElem?_append_left (by rw [hl]; exact hjk)]
      by_cases hjl : j < kp.length
      · rw [List.getElem?_append_left hjl]
      · rw [List.getElem?_append_right (by omega), List.getElem?_replicate,
          List.getElem?_eq_none (by omega)]
        split <;> rfl
    · rw [List.getElem?_eq_none (by
        rw [List.length_append, hl, List.length_singleton]
        omega), List.getElem?_eq_none (by omega)]

theorem indexOfFrom_lt (needle : List Char) : ∀ (hay : List Char) (k0 k : Nat),
    hay ≠ [] → indexOfFrom needle hay k0 = some k → k < k0 + hay.length := by
  intro hay
  induction hay with
  | nil => intro k0 k h; exact absurd rfl h
  | cons c cs ih =>
    intro k0 k _ h
    unfold indexOfFrom at h
    by_cases hs : startsWith (c :: cs) needle = true
    · rw [if_pos hs] at h
      have e : k0 = k := Option.some.inj h
      rw [List.length_cons]
      omega
    · rw [if_neg hs] at h
      cases cs with
      | nil =>
        unfold indexOfFrom at h
        cases needle with
        | nil => exact absurd rfl hs
        | cons a as => simp at h
      | cons d ds =>
        have := ih (k0 + 1) k (List.cons_ne_nil d ds) h
        rw [List.length_cons]
        omega

/-- The logical key of an event is one of 0..15. -/
theorem keyIndex_lt (key : String) (k : Nat) (h : keyIndex key = some k) : k < 16 := by
  have := indexOfFrom_lt key.toList keyChars 0 k (by decide) h
  have hl : keyChars.length = 16 := by decide
  omega

/-- Every logical key 0..15 has a physical key. -/
theorem keyIndex_onto (k : Nat) (hk : k < 16) :
    keyIndex (String.mk [keyChars.getD k ' ']) = some k := by
  interval_cases k <;> decide

/-- C12.  On a running machine `Fx0A` sets `waitingForKey`, records `x` as the waiting
register and leaves the program counter advanced by 2.  From that state a key-press
event whose logical key is `k` (every `k` in 0..15 has such an event) marks key `k`
pressed, writes `k` into register `x` and clears the wait, changing nothing else; a
key-release event writes no register and leaves the wait pending. -/
theorem wait_for_key (rnd : Nat) (s : C8JS) (x : Nat) (hx : x < 16)
    (hw : s.waitingForKey = false) (hh : s.halted = false)
    (hop : fetch s.memory s.pc = 0xF00A + 0x100 * x) :
    ∃ s1, step rnd s = .normal s1 ∧
      s1.waitingForKey = true ∧ s1.waitingRegister = x ∧ s1.pc = s.pc.add 2 ∧
      (∀ k, k < 16 → ∃ key, keyIndex key = some k) ∧
      (∀ key k, keyIndex key = some k →
        keydown key s1 =
          { s1 with keypad := keypadSet s1.keypad k true, v := setV s1.v x k,
                    waitingForKey := false } ∧
        (keydown key s1).keypad.getD k false = true ∧
        (keydown key s1).v x = k ∧
        (keydown key s1).waitingForKey = false ∧
        (∀ j, j ≠ k → (keydown key s1).keypad.getD j false = s1.keypad.getD j false) ∧
        (∀ j, j ≠ x → (keydown key s1).v j = s1.v j) ∧
        (keydown key s1).memory = s1.memory ∧ (keydown key s1).i = s1.i ∧
        (keydown key s1).pc = s1.pc ∧ (keydown key s1).stack = s1.stack ∧
        (keydown key s1).display = s1.display ∧
        (keydown key s1).delayTimer = s1.delayTimer ∧
        (keydown key s1).soundTimer = s1.soundTimer ∧
        (keydown key s1).halted = s1.halted ∧
        (keydown key s1).waitingRegister = s1.waitingRegister) ∧
      (∀ key, (keyup key s1).v = s1.v ∧ (keyup key s1).waitingForKey = true) := by
  have hwait : (present (misc x 0x0A { s with pc := s.pc.add 2 })).waitingForKey = true := by
    rw [present_waitingForKey]
    rfl
  have hreg : (present (misc x 0x0A { s with pc := s.pc.add 2 })).waitingRegister = x := by
    unfold present drawScreen
    split
    · split <;> rfl
    · rfl
  refine ⟨_, step_Fxnn rnd s x 0x0A hx (by decide) hw hh (by omega), hwait, hreg, ?_, ?_,
    ?_, ?_⟩
  · rw [present_pc]
    rfl
  · intro k hk
    exact ⟨_, keyIndex_onto k hk⟩
  · intro key k hkey
    have hk := keyIndex_lt key k hkey
    generalize present (misc x 0x0A { s with pc := s.pc.add 2 }) = s1 at hwait hreg
    have hd : keydown key s1 =
        { s1 with keypad := keypadSet s1.keypad k true,
                  v := setV s1.v s1.waitingRegister k, waitingForKey := false } := by
      unfold keydown
      rw [hkey]
      dsimp only
      rw [if_pos hwait]
    rw [hd]
    refine ⟨by rw [hreg], keypadSet_getD_self _ _ _, ?_, rfl,
      fun j hj => keypadSet_getD_ne _ _ _ _ hj, ?_,
      rfl, rfl, rfl, rfl, rfl, rfl, rfl, rfl, rfl⟩
    · show setV s1.v s1.waitingRegister k x = k
      rw [hreg, setV_eq _ _ _ hx]
      omega
    · intro j hj
      show setV s1.v s1.waitingRegister k j = s1.v j
      rw [hreg, setV_ne _ _ _ _ hj]
  · intro key
    generalize present (misc x 0x0A { s with pc := s.pc.add 2 }) = s1 at hwait hreg
    unfold keyup
    split
    · exact ⟨rfl, hwait⟩
    · exact ⟨rfl, hwait⟩

/-- Witness for `wait_for_key`: `F30A` on a fresh machine. -/
theorem wait_for_key_witness :
    ∃ s1, step 0 waitKeyExample = .normal s1 ∧
      s1.waitingForKey = true ∧ s1.waitingRegister = 3 ∧
      s1.pc = waitKeyExample.pc.add 2 ∧
      (∀ k, k < 16 → ∃ key, keyIndex key = some k) ∧
      (∀ key k, keyIndex key = some k →
        keydown key s1 =
          { s1 with keypad := keypadSet s1.keypad k true, v := setV s1.v 3 k,
                    waitingForKey := false } ∧
        (keydown key s1).keypad.getD k false = true ∧
        (keydown key s1).v 3 = k ∧
        (keydown key s1).waitingForKey = false ∧
        (∀ j, j ≠ k → (keydown key s1).keypad.getD j false = s1.keypad.getD j false) ∧
        (∀ j, j ≠ 3 → (keydown key s1).v j = s1.v j) ∧
        (keydown key s1).memory = s1.memory ∧ (keydown key s1).i = s1.i ∧
        (keydown key s1).pc = s1.pc ∧ (keydown key s1).stack = s1.stack ∧
        (keydown key s1).display = s1.display ∧
        (keydown key s1).delayTimer = s1.delayTimer ∧
        (keydown key s1).soundTimer = s1.soundTimer ∧
        (keydown key s1).halted = s1.halted ∧
        (keydown key s1).waitingRegister = s1.waitingRegister) ∧
      (∀ key, (keyup key s1).v = s1.v ∧ (keyup key s1).waitingForKey = true) :=
  wait_for_key 0 waitKeyExample 3 (by decide) (by decide) (by decide) (by decide)

end C8
